import Mathlib

/-!
Verification of the load/merge engine of `src/etl/load.py`.

The Python module is embedded shallowly:

* A cell value is `Value` (SQL null, string, rational number, boolean, or a
  timestamp).  Python/pandas missing values (`None` / `NaN`) are both `Value.null`.
* A pandas row / a store record is an association list `Record`
  (column name, value); a warehouse table is a `List Record`.
* The store model: the warehouse keeps, for each inserted row, exactly the
  column spellings used in the `INSERT` statement (the loader inserts the
  PascalCase spellings produced by `normalize_dataframe_columns`), and it
  reports the autoincrement surrogate key under the column name that
  `get_table_primary_key` returns.  `SELECT *` reports the stored spellings;
  a `SELECT` with an explicit column list reports the spellings written in the
  query, matching stored columns case-insensitively (spec section 6: all
  components agree on the physical rendering of column names).
* Python `dict` access is exact-string and raises `KeyError` on a missing key
  (`PyError.keyError`); statistics dictionaries are association lists so that
  this behaviour is captured.
* A whole-batch load runs inside one transaction (`conn.begin()` in
  `load_dimension_table` / `load_fact_table`): an exception rolls the table
  back to its pre-load state (`committedDimTable`).
* A store error raised while running an existence-check query is modelled by a
  per-row fault flag: `check_dimension_exists` / `check_fact_exists` catch the
  exception and return `None`, so a faulted query yields `none` regardless of
  the table contents.  The fault-free semantics passes an empty fault list.
-/

deriving instance DecidableEq for Except

namespace ETL

/-- A cell value of a batch row or of a warehouse record. -/
inductive Value where
  | null
  | str (s : String)
  | num (q : ℚ)
  | bool (b : Bool)
  | time (t : Nat)
  deriving DecidableEq, Repr

/-- A pandas row or a store record: an ordered association list of columns. -/
abbrev Record := List (String × Value)

/-- A warehouse table: records in insertion order. -/
abbrev Table := List Record

/-- First value stored under column `k` (Python `row[k]` / `k in row`, exact names). -/
def recGet (r : Record) (k : String) : Option Value :=
  (r.find? (fun p => p.1 == k)).map Prod.snd

/-- Character-level lower-casing of a whole string (ASCII, as in SQL identifier
folding).  Implemented structurally so that concrete instances reduce in the
kernel. -/
def lowerStr (s : String) : String :=
  String.mk (s.toList.map Char.toLower)

/-- Case-insensitive column lookup, the store's identifier matching for queries. -/
def recGetCI (r : Record) (k : String) : Option Value :=
  (r.find? (fun p => lowerStr p.1 == lowerStr k)).map Prod.snd

/-- Python `s.split('_')` on the character list of a column name. -/
def splitOnUnderscore : List Char → List (List Char)
  | [] => [[]]
  | c :: rest =>
      match splitOnUnderscore rest with
      | [] => [[c]]
      | s :: ss => if c = '_' then [] :: s :: ss else (c :: s) :: ss

/-- Python `str.capitalize` on an ASCII segment: first character upper-cased,
the rest lower-cased. -/
def pyCapitalize (cs : List Char) : List Char :=
  match cs with
  | [] => []
  | c :: rest => c.toUpper :: rest.map Char.toLower

/-- Python `'_'.join(...)`. -/
def joinUnderscore : List String → String
  | [] => ""
  | [s] => s
  | s :: rest => s ++ "_" ++ joinUnderscore rest

/-- `normalize_column_name` from `load.py`: capitalize every `_`-separated
segment (`'_'.join(p.capitalize() for p in column_name.split('_'))`). -/
def normalize_column_name (c : String) : String :=
  joinUnderscore ((splitOnUnderscore c.toList).map (fun seg => String.mk (pyCapitalize seg)))

/-- One step of `normalize_dataframe_columns`: rename each column to its
PascalCase form, dropping a column whose normalized name was already produced
by an earlier column. -/
def normalizeRowAux (seen : List String) : Record → Record
  | [] => []
  | (c, v) :: rest =>
      let p := normalize_column_name c
      if p ∈ seen then normalizeRowAux seen rest
      else (p, v) :: normalizeRowAux (p :: seen) rest

/-- `normalize_dataframe_columns` from `load.py`, applied row-wise (all rows of a
pandas frame share one column list, so the per-row computation agrees with the
frame-level one).  `df.replace({np.nan: None})` is the identity here because
`NaN` and `None` are both `Value.null`. -/
def normalize_dataframe_columns (df : List Record) : List Record :=
  df.map (normalizeRowAux [])

/-- Python numeric coercion of a boolean (`True == 1`). -/
def ratOfBool (b : Bool) : ℚ := if b then 1 else 0

/-- Python `==` on cell values (`None == None` is true, `True == 1` is true). -/
def pyEqB : Value → Value → Bool
  | .null, .null => true
  | .str s, .str t => s == t
  | .num a, .num b => a == b
  | .bool a, .bool b => a == b
  | .bool a, .num b => ratOfBool a == b
  | .num a, .bool b => a == ratOfBool b
  | .time a, .time b => a == b
  | _, _ => false

/-- Python `isinstance(v, (int, float))` view of a value (booleans are ints). -/
def toNum : Value → Option ℚ
  | .num q => some q
  | .bool b => some (ratOfBool b)
  | _ => none

/-- SQL `=` on values: null compares equal to nothing. -/
def sqlEqB : Value → Value → Bool
  | .null, _ => false
  | _, .null => false
  | .str s, .str t => s == t
  | .num a, .num b => a == b
  | .bool a, .bool b => a == b
  | .time a, .time b => a == b
  | _, _ => false

/-- The float tolerance `1e-10` of `has_dimension_changed`. -/
def eps : ℚ := 1 / 10 ^ 10

/-- The WHERE-clause builder shared by `check_dimension_exists` and
`check_fact_exists`: for each configured key, use the row's value under the
original column name if present and non-null, else under the normalized
(PascalCase) name if present and non-null; the condition always constrains the
normalized column. -/
def buildConds (row : Record) : List String → List (String × Value)
  | [] => []
  | k :: ks =>
      let kp := normalize_column_name k
      let rest := buildConds row ks
      match recGet row k with
      | some v =>
          if v = .null then
            match recGet row kp with
            | some w => if w = .null then rest else (kp, w) :: rest
            | none => rest
          else (kp, v) :: rest
      | none =>
          match recGet row kp with
          | some w => if w = .null then rest else (kp, w) :: rest
          | none => rest

/-- Evaluation of a conjunctive WHERE clause against a stored record. -/
def whereMatch (rec : Record) (conds : List (String × Value)) : Bool :=
  conds.all (fun c =>
    match recGet rec c.1 with
    | some v => sqlEqB v c.2
    | none => false)

/-- `check_dimension_exists` from `load.py`: build business-key conditions, and
return the first current record matching them (`AND Flag_Registro_Actual =
TRUE`).  Returns `none` when no condition could be built, when the store query
raises (the `fault` flag; the exception is caught and logged), or when no
record matches. -/
def check_dimension_exists (fault : Bool) (tbl : Table) (row : Record)
    (business_keys : List String) : Option Record :=
  let conds := buildConds row business_keys
  if conds.isEmpty then none
  else if fault then none
  else tbl.find? (fun rec =>
    whereMatch rec (("Flag_Registro_Actual", Value.bool true) :: conds))

/-- `check_fact_exists` from `load.py`: like the dimension check but over the
configured unique columns and without the current-record restriction. -/
def check_fact_exists (fault : Bool) (tbl : Table) (row : Record)
    (unique_columns : List String) : Option Record :=
  let conds := buildConds row unique_columns
  if conds.isEmpty then none
  else if fault then none
  else tbl.find? (fun rec => whereMatch rec conds)

/-- The columns `has_dimension_changed` excludes from comparison: the business
keys as configured (their original spelling), the primary key, and the audit
columns. -/
def dimExcludeCols (business_keys : List String) (pk : String) : List String :=
  business_keys ++ [pk, "Flag_Registro_Actual", "Fecha_Inicio_Validez",
    "Fecha_Fin_Validez", "Fecha_Creacion", "Fecha_Ultima_Modificacion"]

/-- The comparison loop of `has_dimension_changed`: walk the new row's columns;
skip excluded columns and columns absent from the existing record; on a Python
`!=` mismatch, report a change unless both values are numeric and within the
`1e-10` tolerance. -/
def changedCols (rec : Record) (excl : List String) : Record → Bool
  | [] => false
  | (c, v) :: rest =>
      let cp := normalize_column_name c
      if cp ∈ excl then changedCols rec excl rest
      else
        match recGet rec cp with
        | none => changedCols rec excl rest
        | some ev =>
            if pyEqB v ev then changedCols rec excl rest
            else
              match toNum v, toNum ev with
              | some a, some b =>
                  if eps < |a - b| then true else changedCols rec excl rest
              | _, _ => true

/-- `has_dimension_changed` from `load.py`. -/
def has_dimension_changed (new_row rec : Record) (business_keys : List String)
    (pk : String) : Bool :=
  changedCols rec (dimExcludeCols business_keys pk) new_row

/-- Overwrite (or, for a column the record does not carry, default-null schema
column, add) the value stored under column `k`. -/
def recSet (r : Record) (k : String) (v : Value) : Record :=
  if r.any (fun p => p.1 == k) then
    r.map (fun p => if p.1 == k then (p.1, v) else p)
  else r ++ [(k, v)]

/-- `expire_current_record` from `load.py`: set `Flag_Registro_Actual = FALSE`
and stamp `Fecha_Fin_Validez` / `Fecha_Ultima_Modificacion` on every record
whose primary key equals `pkv` and which is still current. -/
def expire_current_record (tbl : Table) (pk : String) (pkv : Value) (now : Nat) :
    Table :=
  tbl.map (fun rec =>
    let hit := (match recGet rec pk with
                | some v => sqlEqB v pkv
                | none => false)
      && whereMatch rec [("Flag_Registro_Actual", Value.bool true)]
    if hit then
      recSet (recSet (recSet rec "Flag_Registro_Actual" (Value.bool false))
        "Fecha_Fin_Validez" (Value.time now)) "Fecha_Ultima_Modificacion"
        (Value.time now)
    else rec)

/-- Drop every entry stored under column `k` (Python `del row_dict[k]`). -/
def recDrop (r : Record) (k : String) : Record :=
  r.filter (fun p => !(p.1 == k))

/-- The `exclude_pk` deletion of `insert_new_dimension_record` /
`insert_new_fact_record`: remove the primary-key column under both its original
and its normalized spelling. -/
def stripPk (row : Record) (pk : String) : Record :=
  recDrop (recDrop row pk) (normalize_column_name pk)

/-- `insert_new_dimension_record` from `load.py` (all call sites pass
`exclude_pk=True`): append the row, with the primary-key columns removed, and
let the store assign the next autoincrement surrogate key, reported under the
table's primary-key column name. -/
def insert_new_dimension_record (tbl : Table) (pk : String) (row : Record)
    (exclude_pk : Bool) : Table :=
  let rd := if exclude_pk then stripPk row pk else row
  tbl ++ [(pk, Value.num ((tbl.length + 1 : Nat) : ℚ)) :: rd]

/-- Python `KeyError`. -/
inductive PyError where
  | keyError (k : String)
  deriving DecidableEq, Repr

/-- The `result` statistics dictionary of `load_dimension_table`. -/
abbrev Stats := List (String × Nat)

/-- Dictionary read of a statistics counter. -/
def getStat (st : Stats) (k : String) : Option Nat :=
  (st.find? (fun p => p.1 == k)).map Prod.snd

/-- Python `result[k] += 1`: read the counter (raising `KeyError` when the key
is absent) and store the incremented value. -/
def incrStat (st : Stats) (k : String) : Except PyError Stats :=
  match getStat st k with
  | some n => .ok (st.map (fun p => if p.1 == k then (p.1, n + 1) else p))
  | none => .error (.keyError k)

/-- The statistics dictionary `load_dimension_table` initializes. -/
def initLoadStats : Stats :=
  [("rows_loaded", 0), ("rows_updated", 0), ("rows_skipped", 0)]

/-- Python dictionary access `rec[k]`, raising `KeyError` when absent
(`existing_record[pk_column]` in `load_dimension_table`). -/
def pyDictGet (r : Record) (k : String) : Except PyError Value :=
  match recGet r k with
  | some v => .ok v
  | none => .error (.keyError k)

/-- The per-row loop of `load_dimension_table`: check for a current record via
the business keys; on a match, skip when unchanged, else expire the current
record, insert the new version and increment `result['rows_update']` (sic —
that key is not in the dictionary); on no match, insert as new and increment
`rows_loaded`.  One fault flag per row models store errors during the
existence check. -/
def loadDimRows (business_keys : List String) (pk : String) (now : Nat) :
    Table → Stats → List Bool → List Record → Except PyError (Table × Stats)
  | tbl, st, _, [] => .ok (tbl, st)
  | tbl, st, faults, row :: rest =>
      match check_dimension_exists (faults.headD false) tbl row business_keys with
      | some rec =>
          if has_dimension_changed row rec business_keys pk then
            match pyDictGet rec pk with
            | .error e => .error e
            | .ok pkv =>
                let tbl1 := expire_current_record tbl pk pkv now
                let tbl2 := insert_new_dimension_record tbl1 pk row true
                match incrStat st "rows_update" with
                | .error e => .error e
                | .ok st1 => loadDimRows business_keys pk now tbl2 st1 faults.tail rest
          else
            match incrStat st "rows_skipped" with
            | .error e => .error e
            | .ok st1 => loadDimRows business_keys pk now tbl st1 faults.tail rest
      | none =>
          let tbl1 := insert_new_dimension_record tbl pk row true
          match incrStat st "rows_loaded" with
          | .error e => .error e
          | .ok st1 => loadDimRows business_keys pk now tbl1 st1 faults.tail rest

/-- `load_dimension_table` from `load.py`: normalize the batch's column names,
then run the SCD-2 per-row loop inside one transaction. -/
def load_dimension_table (tbl : Table) (df : List Record)
    (business_keys : List String) (pk : String) (now : Nat) (faults : List Bool) :
    Except PyError (Table × Stats) :=
  loadDimRows business_keys pk now tbl initLoadStats faults
    (normalize_dataframe_columns df)

/-- The committed state of the dimension table after a load: the transaction is
rolled back when the load raises (`with conn.begin()` wraps the whole batch). -/
def committedDimTable (tbl : Table) (df : List Record)
    (business_keys : List String) (pk : String) (now : Nat) (faults : List Bool) :
    Table :=
  match load_dimension_table tbl df business_keys pk now faults with
  | .ok (t, _) => t
  | .error _ => tbl

/-- The fallback business keys of `get_dimension_business_keys`. -/
def commonBusinessKeys : List String :=
  ["codigo", "nombre", "code", "name", "id_externo", "external_id"]

/-- `get_dimension_business_keys` from `load.py` (the table's configuration
entry, when present, is passed as `cfg`). -/
def get_dimension_business_keys (cfg : Option (List String)) : List String :=
  let bk := cfg.getD []
  if bk.isEmpty then commonBusinessKeys else bk

/-- The fallback unique columns of `get_fact_table_unique_columns`. -/
def commonFactUniqueCols : List String :=
  ["fecha", "id_cliente", "id_producto", "id_sucursal", "date", "customer_id",
   "product_id", "store_id", "timestamp", "transaction_id"]

/-- `get_fact_table_unique_columns` from `load.py`. -/
def get_fact_table_unique_columns (cfg : Option (List String)) : List String :=
  let uc := cfg.getD []
  if uc.isEmpty then commonFactUniqueCols else uc

/-- The statistics of `load_fact_table`; the fact loader reads and writes the
same three keys consistently, so a structure is a faithful rendering of its
dictionary. -/
structure FactStats where
  rows_loaded : Nat
  rows_updated : Nat
  rows_skipped : Nat
  deriving DecidableEq, Repr

/-- `insert_new_fact_record` from `load.py` (call site passes
`exclude_pk=True`): strip the primary-key columns, stamp `Fecha_Creacion` and
`Fecha_Ultima_Modificacion` with the load time, and append with a fresh
surrogate key. -/
def insert_new_fact_record (tbl : Table) (pk : String) (row : Record)
    (now : Nat) : Table :=
  let rd := stripPk row pk
  let rd2 := recSet (recSet rd "Fecha_Creacion" (Value.time now))
    "Fecha_Ultima_Modificacion" (Value.time now)
  tbl ++ [(pk, Value.num ((tbl.length + 1 : Nat) : ℚ)) :: rd2]

/-- The per-row loop of `load_fact_table`: skip a row whose unique columns
match an existing record, else insert it as new; existing records are never
modified. -/
def loadFactRows (unique_columns : List String) (pk : String) (now : Nat) :
    Table → FactStats → List Bool → List Record → Table × FactStats
  | tbl, st, _, [] => (tbl, st)
  | tbl, st, faults, row :: rest =>
      match check_fact_exists (faults.headD false) tbl row unique_columns with
      | some _ =>
          loadFactRows unique_columns pk now tbl
            { st with rows_skipped := st.rows_skipped + 1 } faults.tail rest
      | none =>
          loadFactRows unique_columns pk now (insert_new_fact_record tbl pk row now)
            { st with rows_loaded := st.rows_loaded + 1 } faults.tail rest

/-- `load_fact_table` from `load.py`, after the per-table key-mapping step:
normalize the batch's column names and run the dedup-insert loop. -/
def load_fact_table (tbl : Table) (df : List Record)
    (unique_columns : List String) (pk : String) (now : Nat) (faults : List Bool) :
    Table × FactStats :=
  loadFactRows unique_columns pk now tbl ⟨0, 0, 0⟩ faults
    (normalize_dataframe_columns df)

/-- A stored `dimarea` record that is current: business key `A1`, name `Ana`. -/
def dimAreaCurrent : Record :=
  [("dk_area", .num 1), ("Id_Area_Bdo", .str "A1"), ("Nombre_Area", .str "Ana"),
   ("Flag_Registro_Actual", .bool true), ("Fecha_Inicio_Validez", .time 0),
   ("Fecha_Fin_Validez", .time 9999), ("Fecha_Ultima_Modificacion", .time 0)]

/-- A one-record `dimarea` table. -/
def dimAreaTable : Table := [dimAreaCurrent]

/-- A batch row for the same business key `A1` whose name attribute differs. -/
def changedAreaRow : Record :=
  [("id_area_bdo", .str "A1"), ("nombre_area", .str "Ana Maria"),
   ("flag_registro_actual", .bool true), ("fecha_inicio_validez", .time 5),
   ("fecha_fin_validez", .time 9999), ("fecha_creacion", .time 5),
   ("fecha_ultima_modificacion", .time 5)]

/-- C1: for a batch row that matches the current record for business key `A1`
and differs in the non-key column `nombre_area`, `load_dimension_table` reaches
`result['rows_update'] += 1` — a key absent from the statistics dictionary it
initialized — so the load raises `KeyError('rows_update')` instead of
completing and reporting the row under the `rows_updated` counter that
`load_data` reads back. -/
theorem c1_update_counter_key_error :
    load_dimension_table dimAreaTable [changedAreaRow] ["id_area_bdo"] "dk_area"
      5 [] = .error (.keyError "rows_update") := by
  decide

/-- C2: reloading business key `A1` with a changed attribute does not commit
one expired and one new current record: the `KeyError('rows_update')` raised
after the expire-and-insert aborts the batch transaction, so the table rolls
back to its pre-load state (still exactly the one unexpired record with
`Nombre_Area = "Ana"`). -/
theorem c2_scd2_round_trip_aborts :
    committedDimTable dimAreaTable [changedAreaRow] ["id_area_bdo"] "dk_area" 5 []
        = dimAreaTable
      ∧ load_dimension_table dimAreaTable [changedAreaRow] ["id_area_bdo"]
          "dk_area" 5 [] = .error (.keyError "rows_update") := by
  exact ⟨by decide, by decide⟩

/-- A dimension batch row all of whose business-key values are null. -/
def nullKeyAreaRow : Record :=
  [("id_area_bdo", .null), ("nombre_area", .str "Nueva"),
   ("flag_registro_actual", .bool true), ("fecha_inicio_validez", .time 7),
   ("fecha_fin_validez", .time 9999), ("fecha_ultima_modificacion", .time 7)]

/-- C4 counterexample: a dimension row whose only business-key value is null is
not flagged as unresolvable — `check_dimension_exists` builds no condition and
returns `None`, so `load_dimension_table` silently inserts the row as a
brand-new record, completes without error and counts it under `rows_loaded`. -/
theorem c4_null_key_row_silently_inserted :
    load_dimension_table dimAreaTable [nullKeyAreaRow] ["id_area_bdo"] "dk_area"
        7 [] =
      .ok (dimAreaTable ++
        [[("dk_area", .num 2), ("Id_Area_Bdo", .null), ("Nombre_Area", .str "Nueva"),
          ("Flag_Registro_Actual", .bool true), ("Fecha_Inicio_Validez", .time 7),
          ("Fecha_Fin_Validez", .time 9999), ("Fecha_Ultima_Modificacion", .time 7)]],
        [("rows_loaded", 1), ("rows_updated", 0), ("rows_skipped", 0)]) := by
  decide

/-- C4 as amended: a dimension row for which no business-key condition can be
built (every business-key value missing or null) is treated as brand-new — the
load succeeds, inserts the row and counts it under `rows_loaded`; no flagging
or error occurs. -/
theorem c4_amended_null_key_treated_as_new (tbl : Table) (row : Record)
    (keys : List String) (pk : String) (now : Nat)
    (h : buildConds (normalizeRowAux [] row) keys = []) :
    load_dimension_table tbl [row] keys pk now [] =
      .ok (insert_new_dimension_record tbl pk (normalizeRowAux [] row) true,
        [("rows_loaded", 1), ("rows_updated", 0), ("rows_skipped", 0)]) := by
  have hincr : incrStat initLoadStats "rows_loaded" =
      .ok [("rows_loaded", 1), ("rows_updated", 0), ("rows_skipped", 0)] := by
    decide
  simp [load_dimension_table, normalize_dataframe_columns, loadDimRows,
    check_dimension_exists, h, hincr]

/-- Witness for the amended C4 at a concrete all-null-key row. -/
theorem c4_amended_null_key_treated_as_new_witness :
    load_dimension_table dimAreaTable [nullKeyAreaRow] ["id_area_bdo"] "dk_area"
        7 [] =
      .ok (insert_new_dimension_record dimAreaTable "dk_area"
          (normalizeRowAux [] nullKeyAreaRow) true,
        [("rows_loaded", 1), ("rows_updated", 0), ("rows_skipped", 0)]) :=
  c4_amended_null_key_treated_as_new dimAreaTable nullKeyAreaRow ["id_area_bdo"]
    "dk_area" 7 (by decide)

/-- A single-attribute change comparison: the code's tolerance branch reports
no change whenever the two numeric values differ by at most `eps` (the
`abs(new - existing) > 1e-10` test fails). -/
theorem changed_single_num_le (a b : ℚ) (h : |a - b| ≤ eps) :
    has_dimension_changed [("Monto", .num a)]
        [("Monto", .num b), ("Flag_Registro_Actual", .bool true)]
        ["id_servicio_bdo"] "dk_servicio" = false := by
  have hnotin : "Monto" ∉ dimExcludeCols ["id_servicio_bdo"] "dk_servicio" := by
    decide
  have hg : recGet [("Monto", Value.num b), ("Flag_Registro_Actual", Value.bool true)]
      "Monto" = some (Value.num b) := rfl
  simp only [has_dimension_changed, changedCols,
    show normalize_column_name "Monto" = "Monto" from by decide, hg]
  rw [if_neg hnotin]
  by_cases hab : a = b
  · simp [pyEqB, hab]
  · have hpe : pyEqB (Value.num a) (Value.num b) = false := by
      simp [pyEqB, hab]
    simp only [hpe, Bool.false_eq_true, if_false, toNum]
    rw [if_neg (not_lt.mpr h)]

/-- A single-attribute change comparison: a numeric difference above `eps` is
reported as a change. -/
theorem changed_single_num_gt (a b : ℚ) (hab : a ≠ b) (h : eps < |a - b|) :
    has_dimension_changed [("Monto", .num a)]
        [("Monto", .num b), ("Flag_Registro_Actual", .bool true)]
        ["id_servicio_bdo"] "dk_servicio" = true := by
  have hnotin : "Monto" ∉ dimExcludeCols ["id_servicio_bdo"] "dk_servicio" := by
    decide
  have hg : recGet [("Monto", Value.num b), ("Flag_Registro_Actual", Value.bool true)]
      "Monto" = some (Value.num b) := rfl
  simp only [has_dimension_changed, changedCols,
    show normalize_column_name "Monto" = "Monto" from by decide, hg]
  rw [if_neg hnotin]
  have hpe : pyEqB (Value.num a) (Value.num b) = false := by
    simp [pyEqB, hab]
  simp only [hpe, Bool.false_eq_true, if_false, toNum]
  rw [if_pos h]

/-- C9: in `has_dimension_changed`, two numeric values of a non-key, non-audit
attribute whose absolute difference is below `1e-10` are treated as equal, so
the row is not reported as changed (no new version is triggered); the spec's
example pair `10.0000000001` / `10.0000000002` is likewise not a change, while
`10.0` against an existing `10.01` is reported as changed (triggering a new
version). -/
theorem c9_numeric_epsilon_tolerance (a b : ℚ) (h : |a - b| < eps) :
    has_dimension_changed [("Monto", .num a)]
        [("Monto", .num b), ("Flag_Registro_Actual", .bool true)]
        ["id_servicio_bdo"] "dk_servicio" = false
      ∧ has_dimension_changed [("Monto", .num (100000000001 / 10000000000))]
          [("Monto", .num (100000000002 / 10000000000)),
           ("Flag_Registro_Actual", .bool true)]
          ["id_servicio_bdo"] "dk_servicio" = false
      ∧ has_dimension_changed [("Monto", .num 10)]
          [("Monto", .num (1001 / 100)), ("Flag_Registro_Actual", .bool true)]
          ["id_servicio_bdo"] "dk_servicio" = true := by
  refine ⟨changed_single_num_le a b h.le, changed_single_num_le _ _ ?_,
    changed_single_num_gt _ _ (by norm_num) ?_⟩
  · rw [eps]
    rw [show (100000000001 : ℚ) / 10000000000 - 100000000002 / 10000000000
        = -(1 / 10 ^ 10) from by ring]
    rw [abs_neg, abs_of_nonneg (by norm_num)]
  · rw [eps]
    rw [show (10 : ℚ) - 1001 / 100 = -(1 / 100) from by ring]
    rw [abs_neg, abs_of_nonneg (by norm_num)]
    norm_num

/-- Witness for C9 at a concrete pair differing by less than `1e-10`. -/
theorem c9_numeric_epsilon_tolerance_witness :
    |(5 : ℚ) - (5 + 1 / 10 ^ 11)| < eps
      ∧ has_dimension_changed [("Monto", .num 5)]
          [("Monto", .num (5 + 1 / 10 ^ 11)), ("Flag_Registro_Actual", .bool true)]
          ["id_servicio_bdo"] "dk_servicio" = false := by
  have hlt : |(5 : ℚ) - (5 + 1 / 10 ^ 11)| < eps := by
    rw [eps, show (5 : ℚ) - (5 + 1 / 10 ^ 11) = -(1 / 10 ^ 11) from by ring,
      abs_neg, abs_of_nonneg (by norm_num)]
    norm_num
  exact ⟨hlt, (c9_numeric_epsilon_tolerance 5 (5 + 1 / 10 ^ 11) hlt).1⟩

/-- C10: a store error raised while running an existence-check query is caught
and turned into `None` by `check_dimension_exists` / `check_fact_exists`, so
the load treats the row as having no existing record and inserts it as new:
for a dimension row whose fault-free check finds a matching current record, the
faulted load still succeeds and appends a second version of that key, and the
matched record is still present — a duplicate current record instead of a
propagated error; the fact loader likewise inserts a duplicate fact row. -/
theorem c10_store_error_swallowed_inserts_duplicate :
    (∀ (tbl : Table) (row : Record) (keys : List String) (pk : String) (now : Nat)
        (rec : Record),
      check_dimension_exists false tbl (normalizeRowAux [] row) keys = some rec →
        check_dimension_exists true tbl (normalizeRowAux [] row) keys = none
          ∧ load_dimension_table tbl [row] keys pk now [true] =
              .ok (insert_new_dimension_record tbl pk (normalizeRowAux [] row) true,
                [("rows_loaded", 1), ("rows_updated", 0), ("rows_skipped", 0)])
          ∧ rec ∈ insert_new_dimension_record tbl pk (normalizeRowAux [] row) true)
      ∧ (∀ (tbl : Table) (row : Record) (ucols : List String) (pk : String)
          (now : Nat) (rec : Record),
        check_fact_exists false tbl (normalizeRowAux [] row) ucols = some rec →
          check_fact_exists true tbl (normalizeRowAux [] row) ucols = none
            ∧ load_fact_table tbl [row] ucols pk now [true] =
                (insert_new_fact_record tbl pk (normalizeRowAux [] row) now,
                  ⟨1, 0, 0⟩)) := by
  constructor
  · intro tbl row keys pk now rec hfound
    have hconds : (buildConds (normalizeRowAux [] row) keys).isEmpty = false := by
      by_contra hc
      simp only [Bool.not_eq_false] at hc
      simp [check_dimension_exists, hc] at hfound
    have hfault : check_dimension_exists true tbl (normalizeRowAux [] row) keys
        = none := by
      simp [check_dimension_exists, hconds]
    refine ⟨hfault, ?_, ?_⟩
    · have hincr : incrStat initLoadStats "rows_loaded" =
          .ok [("rows_loaded", 1), ("rows_updated", 0), ("rows_skipped", 0)] := by
        decide
      simp [load_dimension_table, normalize_dataframe_columns, loadDimRows, hfault,
        hincr]
    · have hmem : rec ∈ tbl := by
        have := hfound
        simp only [check_dimension_exists, hconds, Bool.false_eq_true, if_false,
          if_neg (by simp [hconds] : ¬(buildConds (normalizeRowAux [] row) keys).isEmpty = true)] at this
        exact List.mem_of_find?_eq_some this
      exact List.mem_append_left _ hmem
  · intro tbl row ucols pk now rec hfound
    have hconds : (buildConds (normalizeRowAux [] row) ucols).isEmpty = false := by
      by_contra hc
      simp only [Bool.not_eq_false] at hc
      simp [check_fact_exists, hc] at hfound
    have hfault : check_fact_exists true tbl (normalizeRowAux [] row) ucols
        = none := by
      simp [check_fact_exists, hconds]
    refine ⟨hfault, ?_⟩
    simp [load_fact_table, normalize_dataframe_columns, loadFactRows, hfault]

/-- Witness for C10: a concrete faulted dimension load duplicates business key
`A1`, and a concrete faulted fact load duplicates an existing fact row. -/
theorem c10_store_error_swallowed_inserts_duplicate_witness :
    (check_dimension_exists true dimAreaTable (normalizeRowAux [] changedAreaRow)
        ["id_area_bdo"] = none
      ∧ load_dimension_table dimAreaTable [changedAreaRow] ["id_area_bdo"]
          "dk_area" 5 [true] =
          .ok (insert_new_dimension_record dimAreaTable "dk_area"
              (normalizeRowAux [] changedAreaRow) true,
            [("rows_loaded", 1), ("rows_updated", 0), ("rows_skipped", 0)])
      ∧ dimAreaCurrent ∈ insert_new_dimension_record dimAreaTable "dk_area"
          (normalizeRowAux [] changedAreaRow) true)
      ∧ (check_fact_exists true dimAreaTable (normalizeRowAux [] changedAreaRow)
          ["id_area_bdo"] = none
        ∧ load_fact_table dimAreaTable [changedAreaRow] ["id_area_bdo"] "dk_area"
            5 [true] =
            (insert_new_fact_record dimAreaTable "dk_area"
              (normalizeRowAux [] changedAreaRow) 5, ⟨1, 0, 0⟩)) :=
  ⟨c10_store_error_swallowed_inserts_duplicate.1 dimAreaTable changedAreaRow
      ["id_area_bdo"] "dk_area" 5 dimAreaCurrent (by decide),
    c10_store_error_swallowed_inserts_duplicate.2 dimAreaTable changedAreaRow
      ["id_area_bdo"] "dk_area" 5 dimAreaCurrent (by decide)⟩

/-- A record is current as tested by the loader's WHERE clauses
(`Flag_Registro_Actual = TRUE`). -/
def isCurrentRec (rec : Record) : Bool :=
  whereMatch rec [("Flag_Registro_Actual", Value.bool true)]

/-- A record carries the fully specified business-key valuation `vs`: its value
under each key's normalized column matches the corresponding value by SQL
equality (so a null stored value matches nothing). -/
def matchesKeyVals (rec : Record) : List String → List Value → Bool
  | [], _ => true
  | _, [] => true
  | k :: ks, v :: vs =>
      (match recGet rec (normalize_column_name k) with
       | some w => sqlEqB w v
       | none => false) && matchesKeyVals rec ks vs

/-- The SCD-2 invariant of the spec: for every fully specified non-null
business-key valuation, at most one record of the table is current. -/
def uniqCurrent (tbl : Table) (keys : List String) : Prop :=
  ∀ vs : List Value, vs.length = keys.length → (∀ v ∈ vs, v ≠ Value.null) →
    (tbl.filter (fun rec => isCurrentRec rec && matchesKeyVals rec keys vs)).length ≤ 1

/-- Unfolding of `whereMatch` over a cons of conditions. -/
theorem whereMatch_cons (rec : Record) (c : String × Value)
    (cs : List (String × Value)) :
    whereMatch rec (c :: cs) =
      ((match recGet rec c.1 with
        | some v => sqlEqB v c.2
        | none => false) && whereMatch rec cs) := by
  simp [whereMatch]

/-- SQL equality is transitive on a shared right-hand value. -/
theorem sqlEqB_right_trans {a b c : Value} (h1 : sqlEqB a c = true)
    (h2 : sqlEqB b c = true) : sqlEqB a b = true := by
  cases a <;> cases b <;> cases c <;> simp_all [sqlEqB]

/-- Looking a key up past a head entry with a different key. -/
theorem recGet_cons_ne (p : String × Value) (r : Record) (k : String)
    (h : p.1 ≠ k) : recGet (p :: r) k = recGet r k := by
  have hb : (p.1 == k) = false := by simp [h]
  simp [recGet, List.find?, hb]

/-- Looking a key up at a matching head entry. -/
theorem recGet_cons_eq (p : String × Value) (r : Record) (k : String)
    (h : p.1 = k) : recGet (p :: r) k = some p.2 := by
  have hb : (p.1 == k) = true := by simp [h]
  simp [recGet, List.find?, hb]

/-- Dropping one column does not affect lookups of a different column. -/
theorem recGet_recDrop_ne (r : Record) (k0 k : String) (h : k ≠ k0) :
    recGet (recDrop r k0) k = recGet r k := by
  induction r with
  | nil => rfl
  | cons p r ih =>
      by_cases hp : p.1 = k0
      · have hdrop : recDrop (p :: r) k0 = recDrop r k0 := by
          simp [recDrop, List.filter_cons, hp]
        rw [hdrop, ih, recGet_cons_ne p r k (by rw [hp]; exact fun he => h he.symm)]
      · have hkeep : recDrop (p :: r) k0 = p :: recDrop r k0 := by
          simp [recDrop, List.filter_cons, hp]
        rw [hkeep]
        by_cases hk : p.1 = k
        · rw [recGet_cons_eq p _ k hk, recGet_cons_eq p r k hk]
        · rw [recGet_cons_ne p _ k hk, recGet_cons_ne p r k hk, ih]

/-- The `exclude_pk` stripping does not affect lookups of other columns. -/
theorem recGet_stripPk (row : Record) (pk kp : String) (h1 : kp ≠ pk)
    (h2 : kp ≠ normalize_column_name pk) :
    recGet (stripPk row pk) kp = recGet row kp := by
  rw [stripPk, recGet_recDrop_ne _ _ _ h2, recGet_recDrop_ne _ _ _ h1]

/-- Unfolding of `buildConds` over a cons of keys, with the let-bindings
inlined. -/
theorem buildConds_cons (row : Record) (k : String) (ks : List String) :
    buildConds row (k :: ks) =
      (match recGet row k with
       | some v =>
           if v = Value.null then
             match recGet row (normalize_column_name k) with
             | some w =>
                 if w = Value.null then buildConds row ks
                 else (normalize_column_name k, w) :: buildConds row ks
             | none => buildConds row ks
           else (normalize_column_name k, v) :: buildConds row ks
       | none =>
           match recGet row (normalize_column_name k) with
           | some w =>
               if w = Value.null then buildConds row ks
               else (normalize_column_name k, w) :: buildConds row ks
           | none => buildConds row ks) := rfl

/-- Every condition built by `buildConds` constrains the normalized column of
one of the configured keys, carries a non-null value, and reflects the row's
own value under that column (assuming each configured key is either already in
normalized form or absent from the row, as holds for a normalized batch row
with lower-case configured keys). -/
theorem buildConds_mem (row : Record) (keys : List String)
    (hb1 : ∀ k ∈ keys, k = normalize_column_name k ∨ recGet row k = none) :
    ∀ c ∈ buildConds row keys, c.2 ≠ Value.null ∧
      ∃ k ∈ keys, c.1 = normalize_column_name k ∧ recGet row c.1 = some c.2 := by
  induction keys with
  | nil => intro c hc; simp [buildConds] at hc
  | cons k ks ih =>
      intro c hc
      have hb1' : ∀ k' ∈ ks, k' = normalize_column_name k' ∨ recGet row k' = none := by
        intro k' hk'; exact hb1 k' (List.mem_cons_of_mem _ hk')
      have htail : ∀ hcc : c ∈ buildConds row ks,
          c.2 ≠ Value.null ∧ ∃ k' ∈ ks, c.1 = normalize_column_name k' ∧
            recGet row c.1 = some c.2 := fun hcc => ih hb1' c hcc
      rw [buildConds_cons] at hc
      cases hrg : recGet row k with
      | some v =>
          simp only [hrg] at hc
          by_cases hv : v = Value.null
          · simp only [if_pos hv] at hc
            cases hrp : recGet row (normalize_column_name k) with
            | some w =>
                simp only [hrp] at hc
                by_cases hw : w = Value.null
                · simp only [if_pos hw] at hc
                  rcases htail hc with ⟨h2, k', hk', h3, h4⟩
                  exact ⟨h2, k', List.mem_cons_of_mem _ hk', h3, h4⟩
                · simp only [if_neg hw] at hc
                  rcases List.mem_cons.mp hc with hhd | htl
                  · subst hhd
                    exact ⟨hw, k, List.mem_cons_self _ _, rfl, hrp⟩
                  · rcases htail htl with ⟨h2, k', hk', h3, h4⟩
                    exact ⟨h2, k', List.mem_cons_of_mem _ hk', h3, h4⟩
            | none =>
                simp only [hrp] at hc
                rcases htail hc with ⟨h2, k', hk', h3, h4⟩
                exact ⟨h2, k', List.mem_cons_of_mem _ hk', h3, h4⟩
          · simp only [if_neg hv] at hc
            rcases List.mem_cons.mp hc with hhd | htl
            · subst hhd
              rcases hb1 k (List.mem_cons_self _ _) with hkn | hnone
              · refine ⟨hv, k, List.mem_cons_self _ _, rfl, ?_⟩
                rw [← hkn]; exact hrg
              · rw [hnone] at hrg; cases hrg
            · rcases htail htl with ⟨h2, k', hk', h3, h4⟩
              exact ⟨h2, k', List.mem_cons_of_mem _ hk', h3, h4⟩
      | none =>
          simp only [hrg] at hc
          cases hrp : recGet row (normalize_column_name k) with
          | some w =>
              simp only [hrp] at hc
              by_cases hw : w = Value.null
              · simp only [if_pos hw] at hc
                rcases htail hc with ⟨h2, k', hk', h3, h4⟩
                exact ⟨h2, k', List.mem_cons_of_mem _ hk', h3, h4⟩
              · simp only [if_neg hw] at hc
                rcases List.mem_cons.mp hc with hhd | htl
                · subst hhd
                  exact ⟨hw, k, List.mem_cons_self _ _, rfl, hrp⟩
                · rcases htail htl with ⟨h2, k', hk', h3, h4⟩
                  exact ⟨h2, k', List.mem_cons_of_mem _ hk', h3, h4⟩
          | none =>
              simp only [hrp] at hc
              rcases htail hc with ⟨h2, k', hk', h3, h4⟩
              exact ⟨h2, k', List.mem_cons_of_mem _ hk', h3, h4⟩

/-- When `buildConds` builds nothing, the row has no non-null value under any
key's normalized column. -/
theorem buildConds_empty (row : Record) (keys : List String)
    (h : buildConds row keys = []) :
    ∀ k ∈ keys, recGet row (normalize_column_name k) = none ∨
      recGet row (normalize_column_name k) = some Value.null := by
  induction keys with
  | nil => intro k hk; cases hk
  | cons k ks ih =>
      intro k' hk'
      rw [buildConds_cons] at h
      cases hrg : recGet row k with
      | some v =>
          simp only [hrg] at h
          by_cases hv : v = Value.null
          · simp only [if_pos hv] at h
            cases hrp : recGet row (normalize_column_name k) with
            | some w =>
                simp only [hrp] at h
                by_cases hw : w = Value.null
                · simp only [if_pos hw] at h
                  rcases List.mem_cons.mp hk' with hh | ht
                  · subst hh; right; rw [hrp, hw]
                  · exact ih h k' ht
                · simp only [if_neg hw] at h; cases h
            | none =>
                simp only [hrp] at h
                rcases List.mem_cons.mp hk' with hh | ht
                · subst hh; left; exact hrp
                · exact ih h k' ht
          · simp only [if_neg hv] at h; cases h
      | none =>
          simp only [hrg] at h
          cases hrp : recGet row (normalize_column_name k) with
          | some w =>
              simp only [hrp] at h
              by_cases hw : w = Value.null
              · simp only [if_pos hw] at h
                rcases List.mem_cons.mp hk' with hh | ht
                · subst hh; right; rw [hrp, hw]
                · exact ih h k' ht
              · simp only [if_neg hw] at h; cases h
          | none =>
              simp only [hrp] at h
              rcases List.mem_cons.mp hk' with hh | ht
              · subst hh; left; exact hrp
              · exact ih h k' ht

/-- Two records matching the same full valuation agree, by SQL equality via
the shared valuation entry, on the normalized column of any configured key. -/
theorem matchesKeyVals_pair (s rec : Record) (keys : List String)
    (vs : List Value) (k : String) (hlen : vs.length = keys.length)
    (hk : k ∈ keys) (hs : matchesKeyVals s keys vs = true)
    (hr : matchesKeyVals rec keys vs = true) :
    ∃ v, (match recGet s (normalize_column_name k) with
          | some w => sqlEqB w v
          | none => false) = true
      ∧ (match recGet rec (normalize_column_name k) with
          | some w => sqlEqB w v
          | none => false) = true := by
  induction keys generalizing vs with
  | nil => cases hk
  | cons k0 ks ih =>
      cases vs with
      | nil => simp at hlen
      | cons v0 vs' =>
          simp only [matchesKeyVals, Bool.and_eq_true] at hs hr
          rcases List.mem_cons.mp hk with hh | ht
          · subst hh
            exact ⟨v0, hs.1, hr.1⟩
          · exact ih vs' (by simpa using hlen) ht hs.2 hr.2

/-- `isCurrentRec` as a single-column test. -/
theorem isCurrentRec_eq (s : Record) :
    isCurrentRec s =
      (match recGet s "Flag_Registro_Actual" with
       | some v => sqlEqB v (Value.bool true)
       | none => false) := by
  simp [isCurrentRec, whereMatch]

/-- A successful counter increment never adds a key: a key absent before is
absent after. -/
theorem getStat_incr_none (st st1 : Stats) (k k2 : String)
    (h : incrStat st k = .ok st1) (hn : getStat st k2 = none) :
    getStat st1 k2 = none := by
  unfold incrStat at h
  cases hg : getStat st k with
  | none => rw [hg] at h; cases h
  | some n =>
      rw [hg] at h
      simp only [Except.ok.injEq] at h
      subst h
      unfold getStat at hn ⊢
      rw [Option.map_eq_none'] at hn ⊢
      rw [List.find?_map, Option.map_eq_none']
      rw [List.find?_eq_none] at hn ⊢
      intro y hy
      by_cases hb : y.1 = k <;> simpa [Function.comp, hb] using hn y hy

/-- Incrementing the missing `rows_update` key raises `KeyError`. -/
theorem incrStat_update_error (st : Stats)
    (hst : getStat st "rows_update" = none) :
    incrStat st "rows_update" = .error (.keyError "rows_update") := by
  simp [incrStat, hst]

/-- Inserting a row for which the current-record check found no match
preserves the at-most-one-current invariant (the business keys must not
collide with the primary-key column, and each must be in normalized form or
absent from the row, as for the repository's lower-case key configuration). -/
theorem uniqCurrent_insert (tbl : Table) (row : Record) (keys : List String)
    (pk : String) (hne : keys ≠ [])
    (hpk : ∀ k ∈ keys, normalize_column_name k ≠ pk ∧
      normalize_column_name k ≠ normalize_column_name pk)
    (hb1 : ∀ k ∈ keys, k = normalize_column_name k ∨ recGet row k = none)
    (hinv : uniqCurrent tbl keys)
    (hnone : check_dimension_exists false tbl row keys = none) :
    uniqCurrent (insert_new_dimension_record tbl pk row true) keys := by
  intro vs hlen hnn
  have hins : insert_new_dimension_record tbl pk row true =
      tbl ++ [(pk, Value.num ((tbl.length + 1 : Nat) : ℚ)) :: stripPk row pk] := rfl
  set rec : Record := (pk, Value.num ((tbl.length + 1 : Nat) : ℚ)) :: stripPk row pk
    with hrec
  rw [hins, List.filter_append, List.length_append]
  have hrecget : ∀ k ∈ keys,
      recGet rec (normalize_column_name k) = recGet row (normalize_column_name k) := by
    intro k hk
    rcases hpk k hk with ⟨h1, h2⟩
    rw [hrec, recGet_cons_ne _ _ _ (fun he => h1 he.symm),
      recGet_stripPk row pk _ h1 h2]
  by_cases hP : (isCurrentRec rec && matchesKeyVals rec keys vs) = true
  · by_cases hce : (buildConds row keys).isEmpty = true
    · exfalso
      rcases hk0 : keys with _ | ⟨k0, ks⟩
      · exact hne hk0
      rcases hv0 : vs with _ | ⟨v0, vs'⟩
      · rw [hv0, hk0] at hlen; simp at hlen
      have hm := (Bool.and_eq_true_iff.mp hP).2
      rw [hk0, hv0] at hm
      simp only [matchesKeyVals, Bool.and_eq_true] at hm
      have h0 := hm.1
      have hempty : buildConds row (k0 :: ks) = [] := by
        rw [← hk0]; exact List.isEmpty_iff.mp hce
      have hkey := buildConds_empty row (k0 :: ks) hempty k0 (List.mem_cons_self _ _)
      have hrg : recGet rec (normalize_column_name k0) =
          recGet row (normalize_column_name k0) := by
        apply hrecget; rw [hk0]; exact List.mem_cons_self _ _
      rcases hkey with hno | hnull
      · rw [hrg, hno] at h0; cases h0
      · rw [hrg, hnull] at h0; simp [sqlEqB] at h0
    · have hfind : tbl.find? (fun r => whereMatch r
          (("Flag_Registro_Actual", Value.bool true) :: buildConds row keys)) = none := by
        simpa [check_dimension_exists, hce] using hnone
      have hnomatch := List.find?_eq_none.mp hfind
      have hold : tbl.filter (fun r => isCurrentRec r && matchesKeyVals r keys vs) = [] := by
        rw [List.filter_eq_nil_iff]
        intro s hs hPs
        apply hnomatch s hs
        rw [whereMatch_cons, Bool.and_eq_true]
        have hPs' := Bool.and_eq_true_iff.mp hPs
        constructor
        · rw [isCurrentRec_eq] at hPs'
          exact hPs'.1
        · rw [whereMatch, List.all_eq_true]
          intro c hc
          rcases buildConds_mem row keys hb1 c hc with ⟨hcnn, k, hk, hc1, hc2⟩
          rcases matchesKeyVals_pair s rec keys vs k hlen hk hPs'.2
            (Bool.and_eq_true_iff.mp hP).2 with ⟨v, hsv, hrv⟩
          have hrecv : recGet rec c.1 = some c.2 := by
            rw [hc1, hrecget k hk, ← hc1]; exact hc2
          rw [hc1] at hrecv ⊢
          rw [hrecv] at hrv
          cases hsw : recGet s (normalize_column_name k) with
          | none => simp [hsw] at hsv
          | some w =>
              have hsv' : sqlEqB w v = true := by simpa [hsw] using hsv
              have hrv' : sqlEqB c.2 v = true := by simpa using hrv
              simpa using sqlEqB_right_trans hsv' hrv'
      rw [hold]
      simp only [List.length_nil, Nat.zero_add]
      calc (List.filter (fun r => isCurrentRec r && matchesKeyVals r keys vs)
              [rec]).length
          ≤ [rec].length := List.length_filter_le _ _
        _ = 1 := rfl
  · have hnew : List.filter (fun r => isCurrentRec r && matchesKeyVals r keys vs)
        [rec] = [] := by
      simp only [List.filter_eq_nil_iff]
      intro a ha
      rcases List.mem_singleton.mp ha with rfl
      simpa using hP
    rw [hnew]
    simpa using hinv vs hlen hnn

/-- Unfolding of the per-row dimension-load loop over a cons of rows, with the
let-bindings inlined. -/
theorem loadDimRows_cons (keys : List String) (pk : String) (now : Nat)
    (tbl : Table) (st : Stats) (faults : List Bool) (row : Record)
    (rest : List Record) :
    loadDimRows keys pk now tbl st faults (row :: rest) =
      (match check_dimension_exists (faults.headD false) tbl row keys with
       | some rec =>
           if has_dimension_changed row rec keys pk then
             match pyDictGet rec pk with
             | .error e => .error e
             | .ok pkv =>
                 match incrStat st "rows_update" with
                 | .error e => .error e
                 | .ok st1 => loadDimRows keys pk now
                     (insert_new_dimension_record
                       (expire_current_record tbl pk pkv now) pk row true)
                     st1 faults.tail rest
           else
             match incrStat st "rows_skipped" with
             | .error e => .error e
             | .ok st1 => loadDimRows keys pk now tbl st1 faults.tail rest
       | none =>
           match incrStat st "rows_loaded" with
           | .error e => .error e
           | .ok st1 => loadDimRows keys pk now
               (insert_new_dimension_record tbl pk row true) st1 faults.tail
               rest) := rfl

/-- The fault-free per-row loop preserves the at-most-one-current invariant on
success: skips leave the table unchanged, the update path cannot succeed (its
counter increment raises), and inserts are covered by `uniqCurrent_insert`. -/
theorem loadDimRows_ok_uniq (keys : List String) (pk : String) (now : Nat)
    (hne : keys ≠ [])
    (hpk : ∀ k ∈ keys, normalize_column_name k ≠ pk ∧
      normalize_column_name k ≠ normalize_column_name pk)
    (batch : List Record) :
    ∀ (tbl : Table) (st : Stats),
      (∀ row ∈ batch, ∀ k ∈ keys,
        k = normalize_column_name k ∨ recGet row k = none) →
      getStat st "rows_update" = none →
      uniqCurrent tbl keys →
      ∀ tbl1 st1, loadDimRows keys pk now tbl st [] batch = .ok (tbl1, st1) →
        uniqCurrent tbl1 keys := by
  induction batch with
  | nil =>
      intro tbl st _ _ hinv tbl1 st1 hok
      simp only [loadDimRows, Except.ok.injEq, Prod.mk.injEq] at hok
      rw [← hok.1]
      exact hinv
  | cons row rest ih =>
      intro tbl st hb hst hinv tbl1 st1 hok
      rw [loadDimRows_cons] at hok
      simp only [List.headD_nil, List.tail_nil] at hok
      have hbrest : ∀ r ∈ rest, ∀ k ∈ keys,
          k = normalize_column_name k ∨ recGet r k = none := by
        intro r hr; exact hb r (List.mem_cons_of_mem _ hr)
      cases hch : check_dimension_exists false tbl row keys with
      | some rec =>
          simp only [hch] at hok
          by_cases hchg : has_dimension_changed row rec keys pk = true
          · rw [if_pos hchg] at hok
            cases hpd : pyDictGet rec pk with
            | error e => simp [hpd] at hok
            | ok pkv =>
                simp [hpd, incrStat_update_error st hst] at hok
          · rw [if_neg hchg] at hok
            cases hi : incrStat st "rows_skipped" with
            | error e => simp [hi] at hok
            | ok st2 =>
                simp only [hi] at hok
                exact ih tbl st2 hbrest (getStat_incr_none st st2 _ _ hi hst) hinv
                  tbl1 st1 hok
      | none =>
          simp only [hch] at hok
          cases hi : incrStat st "rows_loaded" with
          | error e => simp [hi] at hok
          | ok st2 =>
              simp only [hi] at hok
              have hinv' := uniqCurrent_insert tbl row keys pk hne hpk
                (hb row (List.mem_cons_self _ _)) hinv hch
              exact ih (insert_new_dimension_record tbl pk row true) st2 hbrest
                (getStat_incr_none st st2 _ _ hi hst) hinv' tbl1 st1 hok

/-- C3: after any fault-free dimension load, each fully specified non-null
business-key valuation still has at most one current record, provided it did
before: the committed table (the load's result on success, the rolled-back
pre-state on error) preserves the invariant.  Readers never observe the
intermediate expire-then-insert state because the whole batch runs inside one
transaction, which this model commits atomically.  The side conditions say the
key set is non-empty, no business key names the surrogate-key column, and each
configured key is in normalized form or absent from the normalized rows — all
true of the repository's configuration. -/
theorem c3_at_most_one_current_per_key (tbl : Table) (batch : List Record)
    (keys : List String) (pk : String) (now : Nat)
    (hne : keys ≠ [])
    (hpk : ∀ k ∈ keys, normalize_column_name k ≠ pk ∧
      normalize_column_name k ≠ normalize_column_name pk)
    (hb1 : ∀ row ∈ normalize_dataframe_columns batch, ∀ k ∈ keys,
      k = normalize_column_name k ∨ recGet row k = none)
    (hinv : uniqCurrent tbl keys) :
    uniqCurrent (committedDimTable tbl batch keys pk now []) keys := by
  unfold committedDimTable
  cases hl : load_dimension_table tbl batch keys pk now [] with
  | error e => exact hinv
  | ok res =>
      rcases res with ⟨tbl1, st1⟩
      exact loadDimRows_ok_uniq keys pk now hne hpk
        (normalize_dataframe_columns batch) tbl initLoadStats hb1 (by decide)
        hinv tbl1 st1 hl

/-- Witness for C3: loading a fresh business key `A2` into the one-record
`dimarea` table keeps at most one current record per key valuation. -/
theorem c3_at_most_one_current_per_key_witness :
    uniqCurrent (committedDimTable dimAreaTable
      [[("id_area_bdo", .str "A2"), ("nombre_area", .str "Beto"),
        ("flag_registro_actual", .bool true), ("fecha_inicio_validez", .time 9),
        ("fecha_fin_validez", .time 9999),
        ("fecha_ultima_modificacion", .time 9)]]
      ["id_area_bdo"] "dk_area" 9 []) ["id_area_bdo"] :=
  c3_at_most_one_current_per_key dimAreaTable _ ["id_area_bdo"] "dk_area" 9
    (by decide) (by decide) (by decide)
    (fun vs _ _ => le_trans (List.length_filter_le _ _) (by decide))

/-- Python `==` is reflexive on cell values. -/
theorem pyEqB_refl (v : Value) : pyEqB v v = true := by
  cases v <;> simp [pyEqB]

/-- SQL `=` is reflexive on non-null values. -/
theorem sqlEqB_refl_nn (v : Value) (h : v ≠ Value.null) : sqlEqB v v = true := by
  cases v <;> simp_all [sqlEqB]

/-- Dropping a column removes every binding of that column. -/
theorem recGet_recDrop_self (r : Record) (k0 : String) :
    recGet (recDrop r k0) k0 = none := by
  induction r with
  | nil => rfl
  | cons p r ih =>
      by_cases hp : p.1 = k0
      · have : recDrop (p :: r) k0 = recDrop r k0 := by
          simp [recDrop, List.filter_cons, hp]
        rw [this, ih]
      · have : recDrop (p :: r) k0 = p :: recDrop r k0 := by
          simp [recDrop, List.filter_cons, hp]
        rw [this, recGet_cons_ne p _ k0 hp, ih]

/-- In a duplicate-free record, lookup returns the value of the unique entry. -/
theorem recGet_mem_nodup (row : Record) (c : String) (v : Value)
    (hmem : (c, v) ∈ row) (hnodup : (row.map Prod.fst).Nodup) :
    recGet row c = some v := by
  induction row with
  | nil => cases hmem
  | cons p r ih =>
      rcases List.mem_cons.mp hmem with hh | ht
      · rw [← hh]
        exact recGet_cons_eq _ _ _ rfl
      · have hne : p.1 ≠ c := by
          intro he
          have hcin : c ∈ r.map Prod.fst :=
            List.mem_map_of_mem Prod.fst ht
          have := (List.nodup_cons.mp hnodup).1
          rw [he] at this
          exact this hcin
        rw [recGet_cons_ne p r c hne]
        exact ih ht (List.nodup_cons.mp hnodup).2

/-- Unfolding of the change-comparison loop over a cons of columns, with the
let-bindings inlined. -/
theorem changedCols_cons (rec : Record) (excl : List String) (c : String)
    (v : Value) (rest : Record) :
    changedCols rec excl ((c, v) :: rest) =
      (if normalize_column_name c ∈ excl then changedCols rec excl rest
       else
         match recGet rec (normalize_column_name c) with
         | none => changedCols rec excl rest
         | some ev =>
             if pyEqB v ev then changedCols rec excl rest
             else
               match toNum v, toNum ev with
               | some a, some b =>
                   if eps < |a - b| then true else changedCols rec excl rest
               | _, _ => true) := rfl

/-- A normalized, duplicate-free row compared against its own freshly inserted
store record is reported as unchanged: every column either is excluded, was
stripped as a primary-key column, or compares equal to itself. -/
theorem has_dimension_changed_self (row : Record) (keys : List String)
    (pk : String) (pkv : Value)
    (hidem : ∀ c ∈ row.map Prod.fst, normalize_column_name c = c)
    (hnodup : (row.map Prod.fst).Nodup) :
    has_dimension_changed row ((pk, pkv) :: stripPk row pk) keys pk = false := by
  rw [has_dimension_changed]
  have hsub : ∀ sub : Record, (∀ p ∈ sub, p ∈ row) →
      changedCols ((pk, pkv) :: stripPk row pk) (dimExcludeCols keys pk) sub
        = false := by
    intro sub
    induction sub with
    | nil => intro _; rfl
    | cons p rest ih =>
        intro hmem
        rcases p with ⟨c, v⟩
        have hcrow : (c, v) ∈ row := hmem _ (List.mem_cons_self _ _)
        have hc : normalize_column_name c = c :=
          hidem c (List.mem_map_of_mem Prod.fst hcrow)
        have htail := ih (fun q hq => hmem q (List.mem_cons_of_mem _ hq))
        rw [changedCols_cons, hc]
        by_cases hexcl : c ∈ dimExcludeCols keys pk
        · rw [if_pos hexcl, htail]
        · rw [if_neg hexcl]
          have hcpk : c ≠ pk := by
            intro he
            exact hexcl (by
              rw [he, dimExcludeCols]
              exact List.mem_append_right _ (List.mem_cons_self _ _))
          by_cases hcnp : c = normalize_column_name pk
          · have hnone : recGet ((pk, pkv) :: stripPk row pk) c = none := by
              rw [recGet_cons_ne _ _ _ (fun he => hcpk he.symm), stripPk, hcnp,
                recGet_recDrop_self]
            rw [hnone, htail]
          · have hval : recGet ((pk, pkv) :: stripPk row pk) c = some v := by
              rw [recGet_cons_ne _ _ _ (fun he => hcpk he.symm),
                recGet_stripPk row pk c hcpk hcnp]
              exact recGet_mem_nodup row c v hcrow hnodup
            rw [hval]
            simp only [pyEqB_refl, if_true]
            exact htail
  exact hsub row (fun p hp => hp)

/-- A successful fault-free dimension load only appends records. -/
theorem loadDimRows_extends (keys : List String) (pk : String) (now : Nat)
    (batch : List Record) :
    ∀ (tbl : Table) (st : Stats),
      getStat st "rows_update" = none →
      ∀ tbl1 st1, loadDimRows keys pk now tbl st [] batch = .ok (tbl1, st1) →
        ∃ ext, tbl1 = tbl ++ ext := by
  induction batch with
  | nil =>
      intro tbl st _ tbl1 st1 hok
      simp only [loadDimRows, Except.ok.injEq, Prod.mk.injEq] at hok
      exact ⟨[], by rw [← hok.1, List.append_nil]⟩
  | cons row rest ih =>
      intro tbl st hst tbl1 st1 hok
      rw [loadDimRows_cons] at hok
      simp only [List.headD_nil, List.tail_nil] at hok
      cases hch : check_dimension_exists false tbl row keys with
      | some rec =>
          simp only [hch] at hok
          by_cases hchg : has_dimension_changed row rec keys pk = true
          · rw [if_pos hchg] at hok
            cases hpd : pyDictGet rec pk with
            | error e => simp [hpd] at hok
            | ok pkv => simp [hpd, incrStat_update_error st hst] at hok
          · rw [if_neg hchg] at hok
            cases hi : incrStat st "rows_skipped" with
            | error e => simp [hi] at hok
            | ok st2 =>
                simp only [hi] at hok
                exact ih tbl st2 (getStat_incr_none st st2 _ _ hi hst) tbl1 st1 hok
      | none =>
          simp only [hch] at hok
          cases hi : incrStat st "rows_loaded" with
          | error e => simp [hi] at hok
          | ok st2 =>
              simp only [hi] at hok
              rcases ih (insert_new_dimension_record tbl pk row true) st2
                (getStat_incr_none st st2 _ _ hi hst) tbl1 st1 hok with ⟨ext, hext⟩
              refine ⟨((pk, Value.num ((tbl.length + 1 : Nat) : ℚ)) ::
                stripPk row pk) :: ext, ?_⟩
              rw [hext]
              simp [insert_new_dimension_record]

/-- Incrementing the skip counter of a well-shaped statistics dictionary. -/
theorem incrStat_skipped (a b c : Nat) :
    incrStat [("rows_loaded", a), ("rows_updated", b), ("rows_skipped", c)]
      "rows_skipped" =
      .ok [("rows_loaded", a), ("rows_updated", b), ("rows_skipped", c + 1)] := rfl

/-- Reloading an identical normalized batch after a successful fault-free load
finds, for each row, a current record (the one matched on the first run for a
skipped row, or the record the first run inserted), detects no change, and
skips the row: the table is unchanged and only the skip counter moves. -/
theorem loadDimRows_reload (keys : List String) (pk : String) (now now2 : Nat)
    (hpk : ∀ k ∈ keys, normalize_column_name k ≠ pk ∧
      normalize_column_name k ≠ normalize_column_name pk)
    (hflagpk : pk ≠ "Flag_Registro_Actual" ∧
      normalize_column_name pk ≠ "Flag_Registro_Actual")
    (batch : List Record) :
    ∀ (tbl : Table) (st : Stats) (a b c : Nat),
      (∀ row ∈ batch, buildConds row keys ≠ []) →
      (∀ row ∈ batch,
        recGet row "Flag_Registro_Actual" = some (Value.bool true)) →
      (∀ row ∈ batch, ∀ k ∈ keys,
        k = normalize_column_name k ∨ recGet row k = none) →
      (∀ row ∈ batch, ∀ cc ∈ row.map Prod.fst, normalize_column_name cc = cc) →
      (∀ row ∈ batch, (row.map Prod.fst).Nodup) →
      getStat st "rows_update" = none →
      ∀ tbl1 st1, loadDimRows keys pk now tbl st [] batch = .ok (tbl1, st1) →
        loadDimRows keys pk now2 tbl1
          [("rows_loaded", a), ("rows_updated", b), ("rows_skipped", c)] []
          batch =
          .ok (tbl1, [("rows_loaded", a), ("rows_updated", b),
            ("rows_skipped", c + batch.length)]) := by
  induction batch with
  | nil =>
      intro tbl st a b c _ _ _ _ _ _ tbl1 st1 hok
      simp only [loadDimRows, Except.ok.injEq, Prod.mk.injEq] at hok
      rw [← hok.1]
      simp [loadDimRows]
  | cons row rest ih =>
      intro tbl st a b c hconds hflag hb1 hidem hnodup hst tbl1 st1 hok
      have hcondsrow := hconds row (List.mem_cons_self _ _)
      have hce : (buildConds row keys).isEmpty = false := by
        simpa [List.isEmpty_iff] using hcondsrow
      have hcondsrest : ∀ r ∈ rest, buildConds r keys ≠ [] :=
        fun r hr => hconds r (List.mem_cons_of_mem _ hr)
      have hflagrest : ∀ r ∈ rest,
          recGet r "Flag_Registro_Actual" = some (Value.bool true) :=
        fun r hr => hflag r (List.mem_cons_of_mem _ hr)
      have hb1rest : ∀ r ∈ rest, ∀ k ∈ keys,
          k = normalize_column_name k ∨ recGet r k = none :=
        fun r hr => hb1 r (List.mem_cons_of_mem _ hr)
      have hidemrest : ∀ r ∈ rest, ∀ cc ∈ r.map Prod.fst,
          normalize_column_name cc = cc :=
        fun r hr => hidem r (List.mem_cons_of_mem _ hr)
      have hnoduprest : ∀ r ∈ rest, (r.map Prod.fst).Nodup :=
        fun r hr => hnodup r (List.mem_cons_of_mem _ hr)
      rw [loadDimRows_cons] at hok
      simp only [List.headD_nil, List.tail_nil] at hok
      have harith : c + 1 + rest.length = c + (row :: rest).length := by
        simp [List.length_cons]
        omega
      cases hch : check_dimension_exists false tbl row keys with
      | some rec =>
          simp only [hch] at hok
          by_cases hchg : has_dimension_changed row rec keys pk = true
          · rw [if_pos hchg] at hok
            cases hpd : pyDictGet rec pk with
            | error e => simp [hpd] at hok
            | ok pkv => simp [hpd, incrStat_update_error st hst] at hok
          · rw [if_neg hchg] at hok
            cases hi : incrStat st "rows_skipped" with
            | error e => simp [hi] at hok
            | ok st2 =>
                simp only [hi] at hok
                have hext := loadDimRows_extends keys pk now rest tbl st2
                  (getStat_incr_none st st2 _ _ hi hst) tbl1 st1 hok
                rcases hext with ⟨ext, hext⟩
                have hfind : tbl.find? (fun r => whereMatch r
                    (("Flag_Registro_Actual", Value.bool true) ::
                      buildConds row keys)) = some rec := by
                  simpa [check_dimension_exists, hce] using hch
                have hfind1 : tbl1.find? (fun r => whereMatch r
                    (("Flag_Registro_Actual", Value.bool true) ::
                      buildConds row keys)) = some rec := by
                  rw [hext, List.find?_append, hfind]
                  rfl
                have hch1 : check_dimension_exists false tbl1 row keys
                    = some rec := by
                  simp [check_dimension_exists, hce, hfind1]
                rw [loadDimRows_cons]
                simp only [List.headD_nil, List.tail_nil, hch1]
                rw [if_neg hchg, incrStat_skipped]
                rw [← harith]
                exact ih tbl st2 a b (c + 1) hcondsrest hflagrest hb1rest
                  hidemrest hnoduprest (getStat_incr_none st st2 _ _ hi hst)
                  tbl1 st1 hok
      | none =>
          simp only [hch] at hok
          cases hi : incrStat st "rows_loaded" with
          | error e => simp [hi] at hok
          | ok st2 =>
              simp only [hi] at hok
              have hext := loadDimRows_extends keys pk now rest
                (insert_new_dimension_record tbl pk row true) st2
                (getStat_incr_none st st2 _ _ hi hst) tbl1 st1 hok
              rcases hext with ⟨ext, hext⟩
              have hfind : tbl.find? (fun r => whereMatch r
                  (("Flag_Registro_Actual", Value.bool true) ::
                    buildConds row keys)) = none := by
                simpa [check_dimension_exists, hce] using hch
              set rec : Record :=
                (pk, Value.num ((tbl.length + 1 : Nat) : ℚ)) :: stripPk row pk
                with hrecdef
              have hrecget : ∀ kp, kp ≠ pk → kp ≠ normalize_column_name pk →
                  recGet rec kp = recGet row kp := by
                intro kp h1 h2
                rw [hrecdef, recGet_cons_ne _ _ _ (fun he => h1 he.symm),
                  recGet_stripPk row pk kp h1 h2]
              have hpred : whereMatch rec
                  (("Flag_Registro_Actual", Value.bool true) ::
                    buildConds row keys) = true := by
                rw [whereMatch_cons, Bool.and_eq_true_iff]
                constructor
                · have : recGet rec "Flag_Registro_Actual"
                      = some (Value.bool true) := by
                    rw [hrecget _ (fun he => hflagpk.1 he.symm)
                      (fun he => hflagpk.2 he.symm)]
                    exact hflag row (List.mem_cons_self _ _)
                  rw [this]
                  rfl
                · rw [whereMatch, List.all_eq_true]
                  intro cnd hcnd
                  rcases buildConds_mem row keys
                    (hb1 row (List.mem_cons_self _ _)) cnd hcnd with
                    ⟨hcnn, k, hk, hc1, hc2⟩
                  have : recGet rec cnd.1 = some cnd.2 := by
                    rw [hc1, hrecget _ (hpk k hk).1 (hpk k hk).2, ← hc1]
                    exact hc2
                  rw [this]
                  exact sqlEqB_refl_nn cnd.2 hcnn
              have hins : insert_new_dimension_record tbl pk row true
                  = tbl ++ [rec] := rfl
              have hfind1 : tbl1.find? (fun r => whereMatch r
                  (("Flag_Registro_Actual", Value.bool true) ::
                    buildConds row keys)) = some rec := by
                have hone : List.find? (fun r => whereMatch r
                    (("Flag_Registro_Actual", Value.bool true) ::
                      buildConds row keys)) [rec] = some rec := by
                  simp only [List.find?, hpred]
                rw [hext, hins, List.append_assoc, List.find?_append, hfind,
                  Option.none_or, List.find?_append, hone, Option.or_some]
              have hch1 : check_dimension_exists false tbl1 row keys
                  = some rec := by
                simp [check_dimension_exists, hce, hfind1]
              have hchg : has_dimension_changed row rec keys pk = false := by
                rw [hrecdef]
                exact has_dimension_changed_self row keys pk _
                  (hidem row (List.mem_cons_self _ _))
                  (hnodup row (List.mem_cons_self _ _))
              rw [loadDimRows_cons]
              simp only [List.headD_nil, List.tail_nil, hch1]
              rw [if_neg (by simp [hchg]), incrStat_skipped]
              rw [← harith]
              exact ih (insert_new_dimension_record tbl pk row true) st2 a b
                (c + 1) hcondsrest hflagrest hb1rest hidemrest hnoduprest
                (getStat_incr_none st st2 _ _ hi hst) tbl1 st1 hok

/-- C7 counterexample: a batch whose one row has a null business key, loaded
twice, does not skip on the second run — the second run matches nothing
(`check_dimension_exists` builds no condition) and inserts the row again, so
the second load reports `rows_loaded = 1` and appends a third record, where
the claim requires every second-run row to be skipped and nothing inserted. -/
theorem c7_counterexample_null_key_reload_inserts_again :
    load_dimension_table
        (committedDimTable dimAreaTable [nullKeyAreaRow] ["id_area_bdo"]
          "dk_area" 7 [])
        [nullKeyAreaRow] ["id_area_bdo"] "dk_area" 8 [] =
      .ok (dimAreaTable ++
        [[("dk_area", .num 2), ("Id_Area_Bdo", .null), ("Nombre_Area", .str "Nueva"),
          ("Flag_Registro_Actual", .bool true), ("Fecha_Inicio_Validez", .time 7),
          ("Fecha_Fin_Validez", .time 9999), ("Fecha_Ultima_Modificacion", .time 7)],
         [("dk_area", .num 3), ("Id_Area_Bdo", .null), ("Nombre_Area", .str "Nueva"),
          ("Flag_Registro_Actual", .bool true), ("Fecha_Inicio_Validez", .time 7),
          ("Fecha_Fin_Validez", .time 9999), ("Fecha_Ultima_Modificacion", .time 7)]],
        [("rows_loaded", 1), ("rows_updated", 0), ("rows_skipped", 0)]) := by
  decide

/-- C7 as amended: loading an identical dimension batch twice produces zero
additional version transitions on the second run — the table is unchanged and
every row is counted as skipped — provided the first load succeeded and every
normalized row yields at least one non-null business-key condition, carries a
true current flag, and has normalized, duplicate-free column names disjoint
from the surrogate-key column (rows with all business keys null are instead
re-inserted; see the counterexample). -/
theorem c7_amended_reload_all_skipped (tbl : Table) (batch : List Record)
    (keys : List String) (pk : String) (now now2 : Nat)
    (hpk : ∀ k ∈ keys, normalize_column_name k ≠ pk ∧
      normalize_column_name k ≠ normalize_column_name pk)
    (hflagpk : pk ≠ "Flag_Registro_Actual" ∧
      normalize_column_name pk ≠ "Flag_Registro_Actual")
    (hconds : ∀ row ∈ normalize_dataframe_columns batch,
      buildConds row keys ≠ [])
    (hflag : ∀ row ∈ normalize_dataframe_columns batch,
      recGet row "Flag_Registro_Actual" = some (Value.bool true))
    (hb1 : ∀ row ∈ normalize_dataframe_columns batch, ∀ k ∈ keys,
      k = normalize_column_name k ∨ recGet row k = none)
    (hidem : ∀ row ∈ normalize_dataframe_columns batch,
      ∀ cc ∈ row.map Prod.fst, normalize_column_name cc = cc)
    (hnodup : ∀ row ∈ normalize_dataframe_columns batch,
      (row.map Prod.fst).Nodup)
    (tbl1 : Table) (st1 : Stats)
    (hrun1 : load_dimension_table tbl batch keys pk now [] = .ok (tbl1, st1)) :
    load_dimension_table tbl1 batch keys pk now2 [] =
      .ok (tbl1, [("rows_loaded", 0), ("rows_updated", 0),
        ("rows_skipped", batch.length)]) := by
  have hmain := loadDimRows_reload keys pk now now2 hpk hflagpk
    (normalize_dataframe_columns batch) tbl initLoadStats 0 0 0 hconds hflag hb1
    hidem hnodup (by decide) tbl1 st1 hrun1
  have hlen : (normalize_dataframe_columns batch).length = batch.length := by
    simp [normalize_dataframe_columns]
  unfold load_dimension_table
  rw [show initLoadStats =
    [("rows_loaded", 0), ("rows_updated", 0), ("rows_skipped", 0)] from rfl]
  simpa [hlen] using hmain

/-- The table committed by the first run of the C7 witness scenario. -/
def c7Tbl1 : Table :=
  [[("dk_area", .num 1), ("Id_Area_Bdo", .str "A1"),
    ("Nombre_Area", .str "Ana Maria"), ("Flag_Registro_Actual", .bool true),
    ("Fecha_Inicio_Validez", .time 5), ("Fecha_Fin_Validez", .time 9999),
    ("Fecha_Creacion", .time 5), ("Fecha_Ultima_Modificacion", .time 5)]]

/-- Witness for the amended C7: after inserting business key `A1` into an
empty table, reloading the identical one-row batch skips it and leaves the
table unchanged. -/
theorem c7_amended_reload_all_skipped_witness :
    load_dimension_table c7Tbl1 [changedAreaRow] ["id_area_bdo"] "dk_area"
        6 [] =
      .ok (c7Tbl1, [("rows_loaded", 0), ("rows_updated", 0),
        ("rows_skipped", 1)]) :=
  c7_amended_reload_all_skipped [] [changedAreaRow] ["id_area_bdo"] "dk_area"
    5 6 (by decide) (by decide) (by decide) (by decide) (by decide) (by decide)
    (by decide) c7Tbl1
    [("rows_loaded", 1), ("rows_updated", 0), ("rows_skipped", 0)] (by decide)

/-- Updating one column does not affect lookups of a different column. -/
theorem recGet_map_set (r : Record) (k0 : String) (v : Value) (k : String)
    (h : k ≠ k0) :
    recGet (r.map (fun p => if p.1 == k0 then (p.1, v) else p)) k
      = recGet r k := by
  induction r with
  | nil => rfl
  | cons p rest ih =>
      by_cases hp : p.1 = k
      · have hk0 : (p.1 == k0) = false := by
          simp only [beq_eq_false_iff_ne, ne_eq]
          rw [hp]
          exact h
        have hhead : (fun p => if p.1 == k0 then (p.1, v) else p) p = p := by
          simp [hk0]
        simp only [List.map_cons, hhead]
        rw [recGet_cons_eq p _ k hp, recGet_cons_eq p _ k hp]
      · simp only [List.map_cons]
        have hfst : ((fun p => if p.1 == k0 then (p.1, v) else p) p).1 = p.1 := by
          by_cases hb : (p.1 == k0) = true <;> simp [hb]
        rw [recGet_cons_ne _ _ k (by rw [hfst]; exact hp),
          recGet_cons_ne p _ k hp, ih]

/-- `recSet` does not affect lookups of a different column. -/
theorem recGet_recSet_ne (r : Record) (k0 : String) (v : Value) (k : String)
    (h : k ≠ k0) : recGet (recSet r k0 v) k = recGet r k := by
  unfold recSet
  by_cases hany : r.any (fun p => p.1 == k0) = true
  · rw [if_pos hany]
    exact recGet_map_set r k0 v k h
  · rw [if_neg hany]
    unfold recGet
    rw [List.find?_append]
    have hk0 : (k0 == k) = false := by
      simp only [beq_eq_false_iff_ne, ne_eq]
      exact fun he => h he.symm
    have hnone : List.find? (fun p => p.1 == k) [(k0, v)] = none := by
      simp [List.find?, hk0]
    rw [hnone, Option.or_none]

/-- Unfolding of the per-row fact-load loop over a cons of rows. -/
theorem loadFactRows_cons (ucols : List String) (pk : String) (now : Nat)
    (tbl : Table) (st : FactStats) (faults : List Bool) (row : Record)
    (rest : List Record) :
    loadFactRows ucols pk now tbl st faults (row :: rest) =
      (match check_fact_exists (faults.headD false) tbl row ucols with
       | some _ => loadFactRows ucols pk now tbl
           { st with rows_skipped := st.rows_skipped + 1 } faults.tail rest
       | none => loadFactRows ucols pk now (insert_new_fact_record tbl pk row now)
           { st with rows_loaded := st.rows_loaded + 1 } faults.tail rest) := rfl

/-- The fact loader only appends records; it never modifies an existing row. -/
theorem loadFactRows_extends (ucols : List String) (pk : String) (now : Nat)
    (batch : List Record) :
    ∀ (tbl : Table) (st : FactStats),
      ∃ ext, (loadFactRows ucols pk now tbl st [] batch).1 = tbl ++ ext := by
  induction batch with
  | nil => intro tbl st; exact ⟨[], by simp [loadFactRows]⟩
  | cons row rest ih =>
      intro tbl st
      rw [loadFactRows_cons]
      simp only [List.headD_nil, List.tail_nil]
      cases hch : check_fact_exists false tbl row ucols with
      | some rec => exact ih tbl _
      | none =>
          rcases ih (insert_new_fact_record tbl pk row now) _ with ⟨ext, hext⟩
          refine ⟨((pk, Value.num ((tbl.length + 1 : Nat) : ℚ)) ::
            recSet (recSet (stripPk row pk) "Fecha_Creacion" (Value.time now))
              "Fecha_Ultima_Modificacion" (Value.time now)) :: ext, ?_⟩
          rw [hext]
          simp [insert_new_fact_record]

/-- Reloading an identical normalized fact batch after a load finds each row
via its unique-column conditions (matching the record inserted or already
present on the first pass) and skips it: no row is inserted and no existing
row is touched. -/
theorem loadFactRows_reload (ucols : List String) (pk : String)
    (now now2 : Nat)
    (hpk2 : ∀ k ∈ ucols, normalize_column_name k ≠ pk ∧
      normalize_column_name k ≠ normalize_column_name pk ∧
      normalize_column_name k ≠ "Fecha_Creacion" ∧
      normalize_column_name k ≠ "Fecha_Ultima_Modificacion")
    (batch : List Record) :
    ∀ (tbl : Table) (st : FactStats) (a b c : Nat),
      (∀ row ∈ batch, buildConds row ucols ≠ []) →
      (∀ row ∈ batch, ∀ k ∈ ucols,
        k = normalize_column_name k ∨ recGet row k = none) →
      ∀ tbl1 st1, loadFactRows ucols pk now tbl st [] batch = (tbl1, st1) →
        loadFactRows ucols pk now2 tbl1 ⟨a, b, c⟩ [] batch =
          (tbl1, ⟨a, b, c + batch.length⟩) := by
  induction batch with
  | nil =>
      intro tbl st a b c _ _ tbl1 st1 hok
      simp only [loadFactRows, Prod.mk.injEq] at hok
      rw [← hok.1]
      simp [loadFactRows]
  | cons row rest ih =>
      intro tbl st a b c hconds hb1 tbl1 st1 hok
      have hcondsrow := hconds row (List.mem_cons_self _ _)
      have hce : (buildConds row ucols).isEmpty = false := by
        simpa [List.isEmpty_iff] using hcondsrow
      have hcondsrest : ∀ r ∈ rest, buildConds r ucols ≠ [] :=
        fun r hr => hconds r (List.mem_cons_of_mem _ hr)
      have hb1rest : ∀ r ∈ rest, ∀ k ∈ ucols,
          k = normalize_column_name k ∨ recGet r k = none :=
        fun r hr => hb1 r (List.mem_cons_of_mem _ hr)
      rw [loadFactRows_cons] at hok
      simp only [List.headD_nil, List.tail_nil] at hok
      have harith : c + 1 + rest.length = c + (row :: rest).length := by
        simp [List.length_cons]
        omega
      cases hch : check_fact_exists false tbl row ucols with
      | some rec =>
          simp only [hch] at hok
          rcases loadFactRows_extends ucols pk now rest tbl
            { st with rows_skipped := st.rows_skipped + 1 } with ⟨ext, hext⟩
          rw [hok] at hext
          simp only at hext
          have hfind : tbl.find? (fun r =>
              whereMatch r (buildConds row ucols)) = some rec := by
            simpa [check_fact_exists, hce] using hch
          have hfind1 : tbl1.find? (fun r =>
              whereMatch r (buildConds row ucols)) = some rec := by
            rw [hext, List.find?_append, hfind]
            rfl
          have hch1 : check_fact_exists false tbl1 row ucols = some rec := by
            simp [check_fact_exists, hce, hfind1]
          rw [loadFactRows_cons]
          simp only [List.headD_nil, List.tail_nil, hch1]
          rw [← harith]
          exact ih tbl _ a b (c + 1) hcondsrest hb1rest tbl1 st1 hok
      | none =>
          simp only [hch] at hok
          rcases loadFactRows_extends ucols pk now rest
            (insert_new_fact_record tbl pk row now)
            { st with rows_loaded := st.rows_loaded + 1 } with ⟨ext, hext⟩
          rw [hok] at hext
          simp only at hext
          have hfind : tbl.find? (fun r =>
              whereMatch r (buildConds row ucols)) = none := by
            simpa [check_fact_exists, hce] using hch
          set rec : Record :=
            (pk, Value.num ((tbl.length + 1 : Nat) : ℚ)) ::
              recSet (recSet (stripPk row pk) "Fecha_Creacion" (Value.time now))
                "Fecha_Ultima_Modificacion" (Value.time now) with hrecdef
          have hpred : whereMatch rec (buildConds row ucols) = true := by
            rw [whereMatch, List.all_eq_true]
            intro cnd hcnd
            rcases buildConds_mem row ucols
              (hb1 row (List.mem_cons_self _ _)) cnd hcnd with
              ⟨hcnn, k, hk, hc1, hc2⟩
            rcases hpk2 k hk with ⟨hk1, hk2, hk3, hk4⟩
            have : recGet rec cnd.1 = some cnd.2 := by
              rw [hrecdef, hc1,
                recGet_cons_ne _ _ _ (fun he => hk1 he.symm),
                recGet_recSet_ne _ _ _ _ hk4, recGet_recSet_ne _ _ _ _ hk3,
                recGet_stripPk row pk _ hk1 hk2, ← hc1]
              exact hc2
            rw [this]
            exact sqlEqB_refl_nn cnd.2 hcnn
          have hins : insert_new_fact_record tbl pk row now
              = tbl ++ [rec] := rfl
          have hone : List.find? (fun r =>
              whereMatch r (buildConds row ucols)) [rec] = some rec := by
            simp only [List.find?, hpred]
          have hfind1 : tbl1.find? (fun r =>
              whereMatch r (buildConds row ucols)) = some rec := by
            rw [hext, hins, List.append_assoc, List.find?_append, hfind,
              Option.none_or, List.find?_append, hone, Option.or_some]
          have hch1 : check_fact_exists false tbl1 row ucols = some rec := by
            simp [check_fact_exists, hce, hfind1]
          rw [loadFactRows_cons]
          simp only [List.headD_nil, List.tail_nil, hch1]
          rw [← harith]
          exact ih (insert_new_fact_record tbl pk row now) _ a b (c + 1)
            hcondsrest hb1rest tbl1 st1 hok

/-- A fact batch row all of whose configured unique-column values are null. -/
def nullKeyFactRow : Record :=
  [("id_servicio_bdo", .null), ("observaciones", .str "sin id")]

/-- C6 counterexample: a fact row whose only configured unique column is null
is not found on the second pass — `check_fact_exists` builds no condition and
reports no match — so the identical batch inserts the row again instead of
skipping it: the second pass reports `rows_loaded = 1` and the table gains a
duplicate. -/
theorem c6_counterexample_null_unique_reinserted :
    load_fact_table
        (load_fact_table [] [nullKeyFactRow] ["id_servicio_bdo"] "sk_servicio"
          3 []).1
        [nullKeyFactRow] ["id_servicio_bdo"] "sk_servicio" 4 [] =
      ([[("sk_servicio", .num 1), ("Id_Servicio_Bdo", .null),
         ("Observaciones", .str "sin id"), ("Fecha_Creacion", .time 3),
         ("Fecha_Ultima_Modificacion", .time 3)],
        [("sk_servicio", .num 2), ("Id_Servicio_Bdo", .null),
         ("Observaciones", .str "sin id"), ("Fecha_Creacion", .time 4),
         ("Fecha_Ultima_Modificacion", .time 4)]],
       ⟨1, 0, 0⟩) := by
  decide

/-- C6 as amended: loading an identical fact batch twice inserts zero rows on
the second pass — every row is found via the configured unique columns and
counted as skipped, the table is unchanged, and no existing fact row is ever
updated (the first pass only appends) — provided every normalized row yields
at least one non-null unique-column condition (a row whose unique columns are
all null is instead re-inserted; see the counterexample). -/
theorem c6_amended_fact_reload_all_skipped (tbl : Table) (batch : List Record)
    (ucols : List String) (pk : String) (now now2 : Nat)
    (hpk2 : ∀ k ∈ ucols, normalize_column_name k ≠ pk ∧
      normalize_column_name k ≠ normalize_column_name pk ∧
      normalize_column_name k ≠ "Fecha_Creacion" ∧
      normalize_column_name k ≠ "Fecha_Ultima_Modificacion")
    (hconds : ∀ row ∈ normalize_dataframe_columns batch,
      buildConds row ucols ≠ [])
    (hb1 : ∀ row ∈ normalize_dataframe_columns batch, ∀ k ∈ ucols,
      k = normalize_column_name k ∨ recGet row k = none)
    (tbl1 : Table) (st1 : FactStats)
    (hrun1 : load_fact_table tbl batch ucols pk now [] = (tbl1, st1)) :
    load_fact_table tbl1 batch ucols pk now2 [] =
        (tbl1, ⟨0, 0, batch.length⟩)
      ∧ ∃ ext, tbl1 = tbl ++ ext := by
  constructor
  · have hmain := loadFactRows_reload ucols pk now now2 hpk2
      (normalize_dataframe_columns batch) tbl ⟨0, 0, 0⟩ 0 0 0 hconds hb1 tbl1
      st1 hrun1
    have hlen : (normalize_dataframe_columns batch).length = batch.length := by
      simp [normalize_dataframe_columns]
    unfold load_fact_table
    simpa [hlen] using hmain
  · rcases loadFactRows_extends ucols pk now (normalize_dataframe_columns batch)
      tbl ⟨0, 0, 0⟩ with ⟨ext, hext⟩
    refine ⟨ext, ?_⟩
    have : (load_fact_table tbl batch ucols pk now []).1 = tbl1 := by
      rw [hrun1]
    rw [← this]
    exact hext

/-- The table committed by the first run of the C6 witness scenario. -/
def c6Tbl1 : Table :=
  [[("sk_servicio", .num 1), ("Id_Servicio_Bdo", .str "S1"),
    ("Observaciones", .str "ok"), ("Fecha_Creacion", .time 3),
    ("Fecha_Ultima_Modificacion", .time 3)]]

/-- Witness for the amended C6: after inserting fact `S1` into an empty table,
reloading the identical one-row batch skips it, leaves the table unchanged,
and the first pass only appended. -/
theorem c6_amended_fact_reload_all_skipped_witness :
    load_fact_table c6Tbl1
        [[("id_servicio_bdo", Value.str "S1"), ("observaciones", Value.str "ok")]]
        ["id_servicio_bdo"] "sk_servicio" 4 [] = (c6Tbl1, ⟨0, 0, 1⟩)
      ∧ ∃ ext, c6Tbl1 = [] ++ ext :=
  c6_amended_fact_reload_all_skipped []
    [[("id_servicio_bdo", Value.str "S1"), ("observaciones", Value.str "ok")]]
    ["id_servicio_bdo"] "sk_servicio" 3 4 (by decide) (by decide) (by decide)
    c6Tbl1 ⟨1, 0, 0⟩ (by decide)

/-- The store error `pd.read_sql` raises for a missing relation; the spec's
taxonomy labels this MissingDimensionError when a fact resolution references an
unloaded dimension. -/
inductive DbError where
  | missingTable (name : String)
  deriving DecidableEq, Repr

/-- The warehouse: named tables. -/
abbrev Database := List (String × Table)

/-- `pd.read_sql("SELECT ... FROM t", conn)`: reading a table that has not been
created raises the store's undefined-table error. -/
def readTable (db : Database) (name : String) : Except DbError Table :=
  match db.find? (fun p => p.1 == name) with
  | some p => .ok p.2
  | none => .error (.missingTable name)

/-- Projection of a table onto an explicit column list: the result frame's
columns carry the spellings requested in the query, matched case-insensitively
against the stored columns (a column the record does not carry reads as SQL
null). -/
def selectCols (tbl : Table) (cols : List String) : List Record :=
  tbl.map (fun rec => cols.map (fun c => (c, (recGetCI rec c).getD Value.null)))

/-- pandas `c in df.columns`; the resolver only tests column presence on
non-empty frames, whose first row carries the column list. -/
def hasCol (df : List Record) (c : String) : Bool :=
  match df with
  | [] => false
  | r :: _ => r.any (fun p => p.1 == c)

/-- pandas `df[c] = f(row)` (adds or overwrites the column in every row). -/
def addCol (df : List Record) (c : String) (f : Record → Value) : List Record :=
  df.map (fun r => recSet r c (f r))

/-- pandas `df.drop(columns=[c])`. -/
def dropCol (df : List Record) (c : String) : List Record :=
  df.map (fun r => recDrop r c)

/-- pandas `df.drop(columns=cs)`. -/
def dropCols (df : List Record) (cs : List String) : List Record :=
  df.map (fun r => r.filter (fun p => !(cs.contains p.1)))

/-- pandas `df.rename(columns={old: nw})` on a projected frame. -/
def renameCol (df : List Record) (old nw : String) : List Record :=
  df.map (fun r => r.map (fun p => if p.1 == old then (nw, p.2) else p))

/-- Python `str(...)` of a cell value, as used by `astype(str)` when building
the role-tagged join keys (the address keys are strings; numeric and timestamp
renderings are not exercised by the resolver and are abbreviated). -/
def pyStr : Value → String
  | .str s => s
  | .null => "None"
  | .num _ => "num"
  | .bool b => if b then "True" else "False"
  | .time _ => "time"

/-- pandas `astype('Int64')` on a surrogate-key column: the dimension keys are
already integers or null, so the nullable-integer cast changes nothing in this
value model. -/
def astype_int64 (df : List Record) (c : String) : List Record :=
  let _ := c
  df

/-- pandas left merge (`how='left'`) of the fact frame against a projected
dimension frame, joining `lkey` on the left with `rkey` on the right: each
left row is paired with every matching right row (a null key matches nothing),
and with no match the appended right columns `rcols` are null. -/
def leftMerge (df : List Record) (lkey : String) (right : List Record)
    (rcols : List String) (rkey : String) : List Record :=
  df.flatMap (fun l =>
    let lv := (recGet l lkey).getD Value.null
    let ms := right.filter (fun r => sqlEqB lv ((recGet r rkey).getD Value.null))
    if ms.isEmpty then
      [l ++ rcols.map (fun c => (c, Value.null))]
    else
      ms.map (fun r => l ++ rcols.map (fun c => (c, (recGet r c).getD Value.null))))

/-- `map_keys_for_fact_servicios` from `load.py`: read the six dimension
projections once per batch, left-join the fact frame against each — the
courier dimension under three roles, the address dimension under the origin
and destination roles by prefixing the join key with `O-` / `D-` — and drop
the original business-key and temporary role-tag columns. -/
def map_keys_for_fact_servicios (db : Database) (df : List Record) :
    Except DbError (List Record) := do
  let tcliente ← readTable db "dimcliente"
  let tusuario ← readTable db "dimusuario"
  let tmensajero ← readTable db "dimmensajero"
  let tdireccion ← readTable db "dimdireccion"
  let ttipopago ← readTable db "dimtipopago"
  let ttipovehiculo ← readTable db "dimtipovehiculo"
  let dim_cliente := selectCols tcliente ["id_cliente_bdo", "dk_cliente"]
  let dim_usuario := selectCols tusuario ["id_usuario_bdo", "dk_usuario"]
  let dim_mensajero := selectCols tmensajero ["id_mensajero_bdo", "dk_mensajero"]
  let dim_direccion := selectCols tdireccion ["id_direccion_bdo", "dk_direccion"]
  let dim_tipopago := selectCols ttipopago ["id_tipopago_bdo", "dk_tipopago"]
  let dim_tipovehiculo :=
    selectCols ttipovehiculo ["id_tipovehiculo_bdo", "dk_tipovehiculo"]
  let step1 :=
    if hasCol df "id_cliente_bdo" then
      (astype_int64 (leftMerge df "id_cliente_bdo" dim_cliente ["dk_cliente"]
        "id_cliente_bdo") "dk_cliente", ["id_cliente_bdo"])
    else (df, [])
  let step2 :=
    if hasCol step1.1 "id_usuario_bdo" then
      (astype_int64 (leftMerge step1.1 "id_usuario_bdo" dim_usuario
        ["dk_usuario"] "id_usuario_bdo") "dk_usuario",
        step1.2 ++ ["id_usuario_bdo"])
    else step1
  let step3 :=
    if hasCol step2.1 "id_mensajero_principal_bdo" then
      (dropCol (astype_int64 (leftMerge step2.1 "id_mensajero_principal_bdo"
          (renameCol dim_mensajero "dk_mensajero" "dk_mensajero_principal")
          ["id_mensajero_bdo", "dk_mensajero_principal"] "id_mensajero_bdo")
        "dk_mensajero_principal") "id_mensajero_bdo",
        step2.2 ++ ["id_mensajero_principal_bdo"])
    else step2
  let step4 :=
    if hasCol step3.1 "id_mensajero_secundario_bdo" then
      (dropCol (astype_int64 (leftMerge step3.1 "id_mensajero_secundario_bdo"
          (renameCol dim_mensajero "dk_mensajero" "dk_mensajero_secundario")
          ["id_mensajero_bdo", "dk_mensajero_secundario"] "id_mensajero_bdo")
        "dk_mensajero_secundario") "id_mensajero_bdo",
        step3.2 ++ ["id_mensajero_secundario_bdo"])
    else step3
  let step5 :=
    if hasCol step4.1 "id_mensajero_terciario_bdo" then
      (dropCol (astype_int64 (leftMerge step4.1 "id_mensajero_terciario_bdo"
          (renameCol dim_mensajero "dk_mensajero" "dk_mensajero_terciario")
          ["id_mensajero_bdo", "dk_mensajero_terciario"] "id_mensajero_bdo")
        "dk_mensajero_terciario") "id_mensajero_bdo",
        step4.2 ++ ["id_mensajero_terciario_bdo"])
    else step4
  let step6 :=
    if hasCol step5.1 "id_direccion_origen_bdo" then
      (dropCol (astype_int64 (leftMerge
          (addCol step5.1 "temp_direccion_origen_key" (fun r =>
            Value.str ("O-" ++
              pyStr ((recGet r "id_direccion_origen_bdo").getD Value.null))))
          "temp_direccion_origen_key"
          (renameCol dim_direccion "dk_direccion" "dk_direccion_origen")
          ["id_direccion_bdo", "dk_direccion_origen"] "id_direccion_bdo")
        "dk_direccion_origen") "id_direccion_bdo",
        step5.2 ++ ["id_direccion_origen_bdo", "temp_direccion_origen_key"])
    else step5
  let step7 :=
    if hasCol step6.1 "id_direccion_destino_bdo" then
      (dropCol (astype_int64 (leftMerge
          (addCol step6.1 "temp_direccion_destino_key" (fun r =>
            Value.str ("D-" ++
              pyStr ((recGet r "id_direccion_destino_bdo").getD Value.null))))
          "temp_direccion_destino_key"
          (renameCol dim_direccion "dk_direccion" "dk_direccion_destino")
          ["id_direccion_bdo", "dk_direccion_destino"] "id_direccion_bdo")
        "dk_direccion_destino") "id_direccion_bdo",
        step6.2 ++ ["id_direccion_destino_bdo", "temp_direccion_destino_key"])
    else step6
  let step8 :=
    if hasCol step7.1 "id_tipopago_bdo" then
      (astype_int64 (leftMerge step7.1 "id_tipopago_bdo" dim_tipopago
        ["dk_tipopago"] "id_tipopago_bdo") "dk_tipopago",
        step7.2 ++ ["id_tipopago_bdo"])
    else step7
  let step9 :=
    if hasCol step8.1 "id_tipovehiculo_bdo" then
      (astype_int64 (leftMerge step8.1 "id_tipovehiculo_bdo" dim_tipovehiculo
        ["dk_tipovehiculo"] "id_tipovehiculo_bdo") "dk_tipovehiculo",
        step8.2 ++ ["id_tipovehiculo_bdo"])
    else step8
  let existing := step9.2.eraseDups.filter (fun c => hasCol step9.1 c)
  return dropCols step9.1 existing

/-- `map_keys_for_fact_novedades` from `load.py`: read the service fact table
and two dimensions once, left-join the novelty batch against each, and drop
the original business-key columns. -/
def map_keys_for_fact_novedades (db : Database) (df : List Record) :
    Except DbError (List Record) := do
  let tservicios ← readTable db "fact_servicios"
  let ttiponovedad ← readTable db "dimtiponovedad"
  let tmensajero ← readTable db "dimmensajero"
  let fact_servicio := selectCols tservicios ["id_servicio_bdo", "sk_servicio"]
  let dim_tiponovedad :=
    selectCols ttiponovedad ["id_tiponovedad_bdo", "dk_tiponovedad"]
  let dim_mensajero := selectCols tmensajero ["id_mensajero_bdo", "dk_mensajero"]
  let step1 :=
    if hasCol df "id_servicio_bdo" then
      (astype_int64 (leftMerge df "id_servicio_bdo" fact_servicio
        ["sk_servicio"] "id_servicio_bdo") "sk_servicio", ["id_servicio_bdo"])
    else (df, [])
  let step2 :=
    if hasCol step1.1 "id_tiponovedad_bdo" then
      (astype_int64 (leftMerge step1.1 "id_tiponovedad_bdo" dim_tiponovedad
        ["dk_tiponovedad"] "id_tiponovedad_bdo") "dk_tiponovedad",
        step1.2 ++ ["id_tiponovedad_bdo"])
    else step1
  let step3 :=
    if hasCol step2.1 "id_mensajero_bdo" then
      (astype_int64 (leftMerge step2.1 "id_mensajero_bdo" dim_mensajero
        ["dk_mensajero"] "id_mensajero_bdo") "dk_mensajero",
        step2.2 ++ ["id_mensajero_bdo"])
    else step2
  let existing := step3.2.eraseDups.filter (fun c => hasCol step3.1 c)
  return dropCols step3.1 existing

/-- The address dimension of the role-playing scenario: the same physical
address `A1` is stored twice, once per role, under the role-tagged business
keys `O-A1` and `D-A1` (plus an origin-only `A2`); each row has its own
surrogate key. -/
def c5DimDireccion : Table :=
  [[("dk_direccion", .num 1), ("Id_Direccion_Bdo", .str "O-A1"),
    ("Direccion", .str "Calle 1"), ("Tipo_Direccion", .str "ORIGEN"),
    ("Flag_Registro_Actual", .bool true)],
   [("dk_direccion", .num 2), ("Id_Direccion_Bdo", .str "D-A1"),
    ("Direccion", .str "Calle 1"), ("Tipo_Direccion", .str "DESTINO"),
    ("Flag_Registro_Actual", .bool true)],
   [("dk_direccion", .num 3), ("Id_Direccion_Bdo", .str "O-A2"),
    ("Direccion", .str "Calle 2"), ("Tipo_Direccion", .str "ORIGEN"),
    ("Flag_Registro_Actual", .bool true)]]

/-- A warehouse with all six dimensions the service-fact resolver reads. -/
def c5Db : Database :=
  [("dimcliente", []), ("dimusuario", []), ("dimmensajero", []),
   ("dimdireccion", c5DimDireccion), ("dimtipopago", []),
   ("dimtipovehiculo", [])]

/-- A service-fact batch whose first row has origin key = destination key =
`A1`, and a second row with a different origin. -/
def c5Df : List Record :=
  [[("id_servicio_bdo", .str "S1"), ("id_direccion_origen_bdo", .str "A1"),
    ("id_direccion_destino_bdo", .str "A1")],
   [("id_servicio_bdo", .str "S2"), ("id_direccion_origen_bdo", .str "A2"),
    ("id_direccion_destino_bdo", .str "A1")]]

/-- The resolved output of the role-playing scenario. -/
def c5Out : List Record :=
  [[("id_servicio_bdo", .str "S1"), ("dk_direccion_origen", .num 1),
    ("dk_direccion_destino", .num 2)],
   [("id_servicio_bdo", .str "S2"), ("dk_direccion_origen", .num 3),
    ("dk_direccion_destino", .num 2)]]

/-- C5 counterexample: a fact row with origin key `A1` and destination key
`A1` does resolve both surrogate-key columns, but they do not point at the
same dimension row — the origin join key is prefixed `O-` and the destination
key `D-`, so they hit the two distinct role-tagged rows of `dimdireccion`
(surrogate keys 1 and 2), not one shared row. -/
theorem c5_same_key_resolves_to_distinct_rows :
    map_keys_for_fact_servicios c5Db c5Df = .ok c5Out
      ∧ recGet (c5Out.headD []) "dk_direccion_origen" ≠
        recGet (c5Out.headD []) "dk_direccion_destino" := by
  decide

/-- C5 as amended: the row with origin `A1` and destination `A1` resolves
`dk_direccion_origen` to the dimension row stored under business key `O-A1`
and `dk_direccion_destino` to the distinct row stored under `D-A1` — two
role-tagged rows representing the same address — and the other row's
resolutions (`O-A2`, `D-A1`) are unaffected. -/
theorem c5_amended_role_tagged_resolution :
    map_keys_for_fact_servicios c5Db c5Df = .ok c5Out
      ∧ (∃ recO ∈ c5DimDireccion,
          recGet recO "Id_Direccion_Bdo" = some (.str "O-A1") ∧
          recGet recO "dk_direccion" = some (.num 1))
      ∧ (∃ recD ∈ c5DimDireccion,
          recGet recD "Id_Direccion_Bdo" = some (.str "D-A1") ∧
          recGet recD "dk_direccion" = some (.num 2))
      ∧ recGet ((c5Out.drop 1).headD []) "dk_direccion_origen"
          = some (.num 3)
      ∧ recGet ((c5Out.drop 1).headD []) "dk_direccion_destino"
          = some (.num 2) := by
  decide

/-- Monadic bind on a failed `Except` computation propagates the error. -/
theorem exbind_error {e : Type} {a b : Type} (err : e) (f : a → Except e b) :
    (Except.error err >>= f) = Except.error err := rfl

/-- Monadic bind on a successful `Except` computation applies the
continuation. -/
theorem exbind_ok {e : Type} {a b : Type} (x : a) (f : a → Except e b) :
    (Except.ok x >>= f) = f x := rfl

/-- The dimension tables the service-fact resolver reads. -/
def serviciosRequiredTables : List String :=
  ["dimcliente", "dimusuario", "dimmensajero", "dimdireccion", "dimtipopago",
   "dimtipovehiculo"]

/-- The tables the novelty-fact resolver reads. -/
def novedadesRequiredTables : List String :=
  ["fact_servicios", "dimtiponovedad", "dimmensajero"]

/-- A warehouse for the unmatched-key scenario: all six dimensions exist and
`dimcliente` holds one record for business key `C1`. -/
def c8Db : Database :=
  [("dimcliente", [[("dk_cliente", .num 7), ("Id_Cliente_Bdo", .str "C1"),
      ("Flag_Registro_Actual", .bool true)]]),
   ("dimusuario", []), ("dimmensajero", []), ("dimdireccion", []),
   ("dimtipopago", []), ("dimtipovehiculo", [])]

/-- A fact batch referencing the unmatched client business key `C9`. -/
def c8Df : List Record :=
  [[("id_cliente_bdo", .str "C9"), ("nombre_solicitante", .str "Eva")]]

/-- C8: when any dimension table the resolver reads has not been loaded, the
fact key resolver fails with the store's missing-table error (the spec's
MissingDimensionError) — shown for both `map_keys_for_fact_servicios` and
`map_keys_for_fact_novedades` — and it never fabricates a surrogate key: a
business key that matches no dimension row resolves to a null surrogate key. -/
theorem c8_missing_dimension_fails_unmatched_is_null :
    (∀ (db : Database) (df : List Record) (nm : String),
        nm ∈ serviciosRequiredTables →
        db.find? (fun p => p.1 == nm) = none →
        ∃ t, map_keys_for_fact_servicios db df = .error (.missingTable t))
      ∧ (∀ (db : Database) (df : List Record) (nm : String),
          nm ∈ novedadesRequiredTables →
          db.find? (fun p => p.1 == nm) = none →
          ∃ t, map_keys_for_fact_novedades db df = .error (.missingTable t))
      ∧ map_keys_for_fact_servicios c8Db c8Df =
          .ok [[("nombre_solicitante", .str "Eva"),
            ("dk_cliente", Value.null)]] := by
  refine ⟨?_, ?_, by decide⟩
  · intro db df nm hnm hmiss
    cases h1 : db.find? (fun p => p.1 == "dimcliente") with
    | none =>
        exact ⟨"dimcliente", by simp [map_keys_for_fact_servicios, readTable, exbind_error, exbind_ok, h1]⟩
    | some p1 =>
        cases h2 : db.find? (fun p => p.1 == "dimusuario") with
        | none =>
            exact ⟨"dimusuario",
              by simp [map_keys_for_fact_servicios, readTable, exbind_error, exbind_ok, h1, h2]⟩
        | some p2 =>
            cases h3 : db.find? (fun p => p.1 == "dimmensajero") with
            | none =>
                exact ⟨"dimmensajero",
                  by simp [map_keys_for_fact_servicios, readTable, exbind_error, exbind_ok, h1, h2, h3]⟩
            | some p3 =>
                cases h4 : db.find? (fun p => p.1 == "dimdireccion") with
                | none =>
                    exact ⟨"dimdireccion", by
                      simp [map_keys_for_fact_servicios, readTable, exbind_error, exbind_ok, h1, h2, h3,
                        h4]⟩
                | some p4 =>
                    cases h5 : db.find? (fun p => p.1 == "dimtipopago") with
                    | none =>
                        exact ⟨"dimtipopago", by
                          simp [map_keys_for_fact_servicios, readTable, exbind_error, exbind_ok, h1, h2,
                            h3, h4, h5]⟩
                    | some p5 =>
                        cases h6 : db.find?
                            (fun p => p.1 == "dimtipovehiculo") with
                        | none =>
                            exact ⟨"dimtipovehiculo", by
                              simp [map_keys_for_fact_servicios, readTable, exbind_error, exbind_ok, h1,
                                h2, h3, h4, h5, h6]⟩
                        | some p6 =>
                            exfalso
                            simp only [serviciosRequiredTables,
                              List.mem_cons, List.mem_singleton] at hnm
                            rcases hnm with rfl | rfl | rfl | rfl | rfl | rfl |
                              hfalse
                            · rw [hmiss] at h1; cases h1
                            · rw [hmiss] at h2; cases h2
                            · rw [hmiss] at h3; cases h3
                            · rw [hmiss] at h4; cases h4
                            · rw [hmiss] at h5; cases h5
                            · rw [hmiss] at h6; cases h6
                            · cases hfalse
  · intro db df nm hnm hmiss
    cases h1 : db.find? (fun p => p.1 == "fact_servicios") with
    | none =>
        exact ⟨"fact_servicios",
          by simp [map_keys_for_fact_novedades, readTable, exbind_error, exbind_ok, h1]⟩
    | some p1 =>
        cases h2 : db.find? (fun p => p.1 == "dimtiponovedad") with
        | none =>
            exact ⟨"dimtiponovedad",
              by simp [map_keys_for_fact_novedades, readTable, exbind_error, exbind_ok, h1, h2]⟩
        | some p2 =>
            cases h3 : db.find? (fun p => p.1 == "dimmensajero") with
            | none =>
                exact ⟨"dimmensajero",
                  by simp [map_keys_for_fact_novedades, readTable, exbind_error, exbind_ok, h1, h2, h3]⟩
            | some p3 =>
                exfalso
                simp only [novedadesRequiredTables, List.mem_cons,
                  List.mem_singleton] at hnm
                rcases hnm with rfl | rfl | rfl | hfalse
                · rw [hmiss] at h1; cases h1
                · rw [hmiss] at h2; cases h2
                · rw [hmiss] at h3; cases h3
                · cases hfalse

/-- Witness for C8: against an empty warehouse both resolvers fail with the
missing-table error. -/
theorem c8_missing_dimension_fails_unmatched_is_null_witness :
    (∃ t, map_keys_for_fact_servicios [] [] = .error (.missingTable t))
      ∧ ∃ t, map_keys_for_fact_novedades [] [] = .error (.missingTable t) :=
  ⟨c8_missing_dimension_fails_unmatched_is_null.1 [] [] "dimcliente"
      (by decide) rfl,
    c8_missing_dimension_fails_unmatched_is_null.2.1 [] [] "fact_servicios"
      (by decide) rfl⟩

end ETL
